import Mathlib

/-!
Verification development for the prose-analysis engine (Rust sources under
`src/`): a shallow embedding of the sentence splitter, passive-voice
detector, grammar checker, input validation, readability metrics and style
scorer, together with theorems settling the specification's claims.

Conventions of the embedding:
* Rust `&str`/`String` values are `List Char` (Rust `char` and Lean `Char`
  are both Unicode scalar values); `str::len` is the UTF-8 byte length,
  modelled by `utf8Len` via `Char.utf8Size`.
* Rust `f64` arithmetic is modelled by exact rational arithmetic (`ℚ`).
  Every numeric comparison a theorem below depends on has slack far larger
  than one ulp of the corresponding `f64` computation.
* Rust `usize`/`u64` are `Nat` (the quantities involved are word counts and
  byte offsets of documents, far below wrap-around).
* The Unicode character classes (`char::is_uppercase`, `is_lowercase`,
  `is_alphanumeric`, `to_lowercase`, regex `\w`, `\d`, `\p{L}\p{N}`) are
  modelled on their ASCII fragment; `char::is_whitespace` (and regex `\s`,
  `str::trim`, `split_whitespace`) is modelled exactly (the full Unicode
  White_Space set). Every concrete input evaluated in a theorem below stays
  inside the fragment where the modelled classes agree with Rust's.
* `Result<T>` is `Except AnalysisError T`.
-/

/-- Rust `char::is_whitespace`: the Unicode White_Space property, exactly
(25 code points). Also the class of regex `\s`, `str::trim` and
`str::split_whitespace`. -/
def rustIsWhitespace (c : Char) : Bool :=
  c = '\t' || c = '\n' || c = '\x0B' || c = '\x0C' || c = '\r' || c = ' ' ||
  c = '\u0085' || c = ' ' || c = ' ' ||
  (' ' ≤ c && c ≤ ' ') ||
  c = ' ' || c = ' ' || c = ' ' || c = ' ' || c = '　'

/-- Rust `char::is_uppercase`, ASCII fragment of the Unicode Uppercase class. -/
def rustIsUppercase (c : Char) : Bool := 'A' ≤ c && c ≤ 'Z'

/-- Rust `char::is_lowercase`, ASCII fragment of the Unicode Lowercase class. -/
def rustIsLowercase (c : Char) : Bool := 'a' ≤ c && c ≤ 'z'

/-- Rust `char::is_alphanumeric`, ASCII fragment (letters and digits). -/
def rustIsAlphanumeric (c : Char) : Bool :=
  rustIsUppercase c || rustIsLowercase c || (('0' ≤ c) && c ≤ '9')

/-- Rust `char::to_lowercase` / `str::to_lowercase`, ASCII fragment
(a one-to-one, length-preserving map on this fragment). -/
def rustToLowerChar (c : Char) : Char :=
  if 'A' ≤ c && c ≤ 'Z' then Char.ofNat (c.toNat + 32) else c

/-- Regex `\w` (word character): ASCII fragment `[A-Za-z0-9_]`. -/
def rustIsWordChar (c : Char) : Bool := rustIsAlphanumeric c || c = '_'

/-- Regex `\d`: decimal digit (ASCII fragment). -/
def rustIsDigit (c : Char) : Bool := '0' ≤ c && c ≤ '9'

/-- Regex `\p{L}`/`\p{N}` union used by the word-extraction pattern
(ASCII fragment: letters and digits). -/
def rustIsLetterOrNumber (c : Char) : Bool := rustIsAlphanumeric c

/-- UTF-8 byte length of a character sequence: Rust `str::len`. -/
def utf8Len (l : List Char) : Nat := (l.map Char.utf8Size).sum

/-- Rust `str::trim_start`. -/
def rustTrimStart (l : List Char) : List Char := l.dropWhile rustIsWhitespace

/-- Rust `str::trim_end`. -/
def rustTrimEnd (l : List Char) : List Char :=
  (l.reverse.dropWhile rustIsWhitespace).reverse

/-- Rust `str::trim`: whitespace stripped from both ends. -/
def rustTrim (l : List Char) : List Char := rustTrimEnd (rustTrimStart l)

/-- Drop trailing characters satisfying `p` (Rust `str::trim_end_matches`
with a predicate or single-character pattern). -/
def dropEndWhile (p : Char → Bool) (l : List Char) : List Char :=
  (l.reverse.dropWhile p).reverse

/-- Rust `str::split_whitespace` (accumulator form): maximal non-whitespace
runs, in order, with no empty items. -/
def splitWhitespaceAux : List Char → List Char → List (List Char)
  | [], acc => if acc.isEmpty then [] else [acc.reverse]
  | c :: rest, acc =>
    if rustIsWhitespace c then
      if acc.isEmpty then splitWhitespaceAux rest []
      else acc.reverse :: splitWhitespaceAux rest []
    else splitWhitespaceAux rest (c :: acc)

/-- Rust `str::split_whitespace`. -/
def splitWhitespace (l : List Char) : List (List Char) := splitWhitespaceAux l []

/-- Character-level index of the first occurrence of `needle` in `hay`.
Rust `str::find` on a string pattern returns the byte offset of this same
occurrence: UTF-8 is self-synchronizing, so a byte-level occurrence of one
validly encoded string inside another is always char-aligned. -/
def findSubIdx : List Char → List Char → Option Nat
  | hay, needle =>
    if needle.isPrefixOf hay then some 0
    else
      match hay with
      | [] => none
      | _ :: t => (findSubIdx t needle).map (· + 1)

/-- Byte offset of the first occurrence of character `target` (Rust
`str::find(char)`), as a UTF-8 byte offset. -/
def findCharByteOffset (target : Char) : List Char → Option Nat
  | [] => none
  | c :: rest =>
    if c = target then some 0
    else (findCharByteOffset target rest).map (c.utf8Size + ·)

/-- Rust `str::split(char)`: pieces between occurrences of the separator,
empty pieces kept. -/
def splitOnChar (sep : Char) : List Char → List (List Char)
  | [] => [[]]
  | c :: rest =>
    if c = sep then [] :: splitOnChar sep rest
    else
      match splitOnChar sep rest with
      | [] => [[c]]
      | p :: ps => (c :: p) :: ps

/-! ## A small backtracking regex engine

The `lazy_static` patterns of the source are compiled by the `regex` crate,
which implements leftmost-first (Perl-style preference) match semantics.
`Re` is the abstract syntax needed by the source's patterns and `mmatch`
enumerates the lengths of the matches of `re` at the start of `chars`, in
preference order (alternation: left first; repetition: greedy). `prev` is
the character immediately before `chars` in the haystack, for `\b`. -/

inductive Re where
  | eps
  | cls (p : Char → Bool)
  | seq (a b : Re)
  | alt (a b : Re)
  | star (r : Re)
  | wb

/-- One-or-more, greedy (regex `+`). -/
def Re.plus (r : Re) : Re := .seq r (.star r)

/-- Zero-or-one, greedy (regex `?`). -/
def Re.opt (r : Re) : Re := .alt r .eps

/-- A literal character. -/
def Re.lit (c : Char) : Re := .cls (fun d => d = c)

/-- A literal word. -/
def Re.str (s : String) : Re :=
  s.toList.foldr (fun c r => Re.seq (Re.lit c) r) Re.eps

/-- Alternation over a list, preferring earlier entries. -/
def Re.alts (rs : List Re) : Re := rs.foldr Re.alt (Re.cls (fun _ => false))

/-- Is there a word boundary between `prev` and `next`? -/
def atWordBoundary (prev next : Option Char) : Bool :=
  (match prev with | some c => rustIsWordChar c | none => false) !=
  (match next with | some c => rustIsWordChar c | none => false)

/-- The character just before position `k` of `chars`, where `prev` precedes
`chars` itself. -/
def prevAt (chars : List Char) (prev : Option Char) (k : Nat) : Option Char :=
  if k = 0 then prev else chars.get? (k - 1)

/-- The greedy iteration of a starred subpattern: `m` matches one copy of
the subpattern; each iteration must consume at least one character, so
`fuel = chars.length` iterations exhaust every possibility (with no fuel
nothing remains to consume and only the empty match `[0]` is produced,
exactly as the guard would force). Structural recursion on `fuel` so that
the kernel can evaluate matches. -/
def starMatches (m : List Char → Option Char → List Nat) :
    Nat → List Char → Option Char → List Nat
  | 0, _, _ => [0]
  | fuel + 1, chars, prev =>
    ((m chars prev).flatMap fun k =>
      if 0 < k ∧ 0 < chars.length then
        (starMatches m fuel (chars.drop k) (prevAt chars prev k)).map (k + ·)
      else []) ++ [0]

/-- All match lengths of `re` at the start of `chars`, in preference order. -/
def mmatch : Re → List Char → Option Char → List Nat
  | .eps, _, _ => [0]
  | .cls p, chars, _ =>
    match chars with
    | [] => []
    | c :: _ => if p c then [1] else []
  | .wb, chars, prev => if atWordBoundary prev chars.head? then [0] else []
  | .alt a b, chars, prev => mmatch a chars prev ++ mmatch b chars prev
  | .seq a b, chars, prev =>
    (mmatch a chars prev).flatMap fun k =>
      (mmatch b (chars.drop k) (prevAt chars prev k)).map (k + ·)
  | .star r, chars, prev =>
    starMatches (fun cs pv => mmatch r cs pv) chars.length chars prev

/-- The leftmost-first match of `re` at the start of `chars`, if any:
its length in characters. -/
def matchHere (re : Re) (chars : List Char) (prev : Option Char) : Option Nat :=
  (mmatch re chars prev).head?

/-- `Regex::find` from byte position `pos`: `(start, end)` byte offsets of
the leftmost match, scanning char-aligned start positions left to right. -/
def reFindAux (re : Re) : List Char → Option Char → Nat → Option (Nat × Nat)
  | [], prev, pos =>
    match matchHere re [] prev with
    | some _ => some (pos, pos)
    | none => none
  | c :: rest, prev, pos =>
    match matchHere re (c :: rest) prev with
    | some k => some (pos, pos + utf8Len ((c :: rest).take k))
    | none => reFindAux re rest (some c) (pos + c.utf8Size)

/-- `Regex::find`: byte span of the leftmost match. -/
def reFind (re : Re) (chars : List Char) : Option (Nat × Nat) :=
  reFindAux re chars none 0

/-- `Regex::is_match`. -/
def reIsMatch (re : Re) (chars : List Char) : Bool := (reFind re chars).isSome

/-- `Regex::find_iter`, collecting the matched substrings in order (an
empty match advances by one character, as the crate does). Every step
consumes at least one character, so `fuel = chars.length + 1` steps always
suffice; the fuel-exhausted branch is unreachable. Structural recursion so
that the kernel can evaluate. -/
def reFindIterAux (re : Re) : Nat → List Char → Option Char → List (List Char)
  | 0, _, _ => []
  | fuel + 1, chars, prev =>
    match matchHere re chars prev with
    | some k =>
      if 0 < k ∧ 0 < chars.length then
        chars.take k :: reFindIterAux re fuel (chars.drop k) (prevAt chars prev k)
      else
        match chars with
        | [] => []
        | c :: rest => reFindIterAux re fuel rest (some c)
    | none =>
      match chars with
      | [] => []
      | c :: rest => reFindIterAux re fuel rest (some c)

/-- `Regex::find_iter` over a haystack. -/
def reFindIter (re : Re) (chars : List Char) : List (List Char) :=
  reFindIterAux re (chars.length + 1) chars none

/-! ## The source's compiled patterns -/

/-- Regex `\s` as a pattern atom. -/
def reWs : Re := .cls rustIsWhitespace

/-- Regex `\w` as a pattern atom. -/
def reWord : Re := .cls rustIsWordChar

/-- `sentence_splitter.rs`: `DECIMAL_PATTERN`, the regex `\d+\.\d+`. -/
def DECIMAL_PATTERN : Re :=
  .seq (.plus (.cls rustIsDigit)) (.seq (.lit '.') (.plus (.cls rustIsDigit)))

/-- `sentence_splitter.rs`: `URL_PATTERN`, `(?:https?://|www\.)[^\s]+`. -/
def URL_PATTERN : Re :=
  .seq
    (.alt (.seq (.str "http") (.seq (.opt (.lit 's')) (.str "://")))
      (.str "www."))
    (.plus (.cls (fun c => !rustIsWhitespace c)))

/-- `sentence_splitter.rs`: `EMAIL_PATTERN`,
`\b[A-Za-z0-9._%+-]+@[A-Za-z0-9.-]+\.[A-Z|a-z]{2,}\b` (the `[A-Z|a-z]`
class of the source literally contains the bar). -/
def EMAIL_PATTERN : Re :=
  .seq .wb
    (.seq (.plus (.cls (fun c =>
        rustIsAlphanumeric c || c = '.' || c = '_' || c = '%' || c = '+' || c = '-')))
      (.seq (.lit '@')
        (.seq (.plus (.cls (fun c => rustIsAlphanumeric c || c = '.' || c = '-')))
          (.seq (.lit '.')
            (.seq (.cls (fun c => rustIsUppercase c || rustIsLowercase c || c = '|'))
              (.seq (.plus (.cls (fun c => rustIsUppercase c || rustIsLowercase c || c = '|')))
                .wb))))))

/-- `sentence_splitter.rs`: `INITIALS_PATTERN`, `\b[A-Z]\.(?:[A-Z]\.)*`
(`[A-Z]` is an exact ASCII class). -/
def INITIALS_PATTERN : Re :=
  .seq .wb
    (.seq (.cls rustIsUppercase)
      (.seq (.lit '.')
        (.star (.seq (.cls rustIsUppercase) (.lit '.')))))

/-- `sentence_splitter.rs`: `ELLIPSIS_PATTERN`, `\.{3,}`. -/
def ELLIPSIS_PATTERN : Re :=
  .seq (.lit '.') (.seq (.lit '.') (.plus (.lit '.')))

/-- `checker.rs`: `DOUBLE_SPACE`, the regex of one space followed by one or
more spaces (two or more literal spaces). -/
def DOUBLE_SPACE : Re := .seq (.lit ' ') (.plus (.lit ' '))

/-- `lib.rs`: `WORD_EXTRACT`, `\b[\p{L}\p{N}]+(?:[-'][\p{L}\p{N}]+)*\b`. -/
def WORD_EXTRACT : Re :=
  .seq .wb
    (.seq (.plus (.cls rustIsLetterOrNumber))
      (.seq (.star (.seq (.cls (fun c => c = '-' || c = '\''))
          (.plus (.cls rustIsLetterOrNumber))))
        .wb))

/-- `checker.rs`: `SUBJECT_VERB_PATTERNS`, four regexes with messages. -/
def SUBJECT_VERB_PATTERNS : List (Re × String) :=
  [(.seq .wb (.seq (.alts [.str "he", .str "she", .str "it"])
      (.seq (.plus reWs) (.seq (.alts [.str "are", .str "were", .str "have"]) .wb))),
    "Singular subject with plural verb"),
   (.seq .wb (.seq (.str "the") (.seq (.plus reWs) (.seq (.plus reWord)
      (.seq (.plus reWs) (.seq (.alts [.str "are", .str "were", .str "have"]) .wb))))),
    "Possible singular subject with plural verb"),
   (.seq .wb (.seq (.alts [.str "they", .str "we", .str "you"])
      (.seq (.plus reWs) (.seq (.alts [.str "is", .str "was", .str "has"]) .wb))),
    "Plural subject with singular verb"),
   (.seq .wb (.seq (.str "the") (.seq (.plus reWs) (.seq (.plus reWord)
      (.seq (.lit 's') (.seq (.plus reWs)
        (.seq (.alts [.str "is", .str "was", .str "has"]) .wb)))))),
    "Possible plural subject with singular verb")]

/-- `checker.rs`: `DOUBLE_NEGATIVE`,
`\b(don't|doesn't|didn't|won't|can't|couldn't|shouldn't|wouldn't)\s+\w+\s+(no|nothing|nobody|never|nowhere|neither)\b`. -/
def DOUBLE_NEGATIVE : Re :=
  .seq .wb
    (.seq (.alts [.str "don't", .str "doesn't", .str "didn't", .str "won't",
        .str "can't", .str "couldn't", .str "shouldn't", .str "wouldn't"])
      (.seq (.plus reWs) (.seq (.plus reWord) (.seq (.plus reWs)
        (.seq (.alts [.str "no", .str "nothing", .str "nobody", .str "never",
            .str "nowhere", .str "neither"]) .wb)))))

/-- `checker.rs`: `RUN_ON_INDICATORS`,
`,\s+(and|but|or|so)\s+\w+\s+\w+\s+,\s+(and|but|or|so)`. -/
def RUN_ON_INDICATORS : Re :=
  .seq (.lit ',')
    (.seq (.plus reWs) (.seq (.alts [.str "and", .str "but", .str "or", .str "so"])
      (.seq (.plus reWs) (.seq (.plus reWord) (.seq (.plus reWs) (.seq (.plus reWord)
        (.seq (.plus reWs) (.seq (.lit ',') (.seq (.plus reWs)
          (.alts [.str "and", .str "but", .str "or", .str "so"]))))))))))

/-! ## Lexicons (`dictionaries/abbreviations.rs`, `dictionaries/irregular_verbs.rs`) -/

/-- `ABBREVIATIONS`: the abbreviation lexicon (a `HashSet`; order is
irrelevant, only membership is used). -/
def ABBREVIATIONS : List (List Char) :=
  (["mr", "mrs", "ms", "miss", "dr", "prof", "rev", "fr", "sr", "jr",
    "messrs", "mmes", "msgr", "hon", "esq", "phd", "md", "dds",
    "capt", "col", "gen", "lt", "maj", "sgt", "cpl", "pvt",
    "adm", "cmdr", "sen", "rep", "gov", "pres", "sec",
    "b.a", "b.s", "m.a", "m.s", "m.b.a", "ph.d", "m.d", "j.d",
    "ll.b", "ll.m", "d.d.s", "d.v.m", "pharm.d", "ed.d", "psy.d",
    "etc", "vs", "e.g", "i.e", "et al", "cf", "viz", "ibid",
    "op. cit", "loc. cit", "n.b", "p.s", "r.s.v.p",
    "a.m", "p.m", "b.c", "a.d", "c.e", "b.c.e",
    "jan", "feb", "mar", "apr", "may", "jun", "jul", "aug",
    "sep", "sept", "oct", "nov", "dec",
    "mon", "tue", "tues", "wed", "thu", "thur", "thurs",
    "fri", "sat", "sun",
    "st", "ave", "blvd", "rd", "dr", "ct", "ln", "pl", "ter",
    "apt", "ste", "rm", "fl", "bldg", "dept",
    "u.s", "u.k", "u.s.a", "u.k", "e.u",
    "n.y", "calif", "fla", "mass", "penn", "wash",
    "inc", "corp", "ltd", "llc", "co", "bros", "assn", "dept",
    "div", "mfg", "dist", "intl",
    "oz", "lb", "lbs", "kg", "g", "mg", "l", "ml", "cm", "mm",
    "m", "km", "in", "ft", "yd", "mi", "sq", "cu",
    "mph", "kph", "rpm", "hp",
    "vol", "no", "nos", "p", "pp", "par", "sec", "ch", "fig",
    "eq", "est", "approx", "min", "max", "avg",
    "misc", "no", "nos", "nr", "ref", "refs", "ed", "eds",
    "trans", "rev", "supp", "app", "encl"] : List String).map String.toList

/-- `is_abbreviation`: lowercase, strip leading/trailing periods, look up. -/
def is_abbreviation (word : List Char) : Bool :=
  let word_lower := word.map rustToLowerChar
  let trimmed := dropEndWhile (fun c => c = '.')
    ((word_lower.dropWhile (fun c => c = '.')))
  ABBREVIATIONS.contains trimmed

/-- `IRREGULAR_PAST_PARTICIPLES` (a `HashSet`; only membership is used). -/
def IRREGULAR_PAST_PARTICIPLES : List (List Char) :=
  (["been", "done", "gone", "seen", "known", "given", "taken", "made",
    "come", "become", "written", "spoken", "broken", "chosen", "driven",
    "eaten", "fallen", "forgotten", "forgiven", "frozen", "gotten",
    "hidden", "ridden", "risen", "shaken", "shown", "stolen", "sworn",
    "torn", "thrown", "worn", "beaten", "bitten", "blown", "drawn",
    "flown", "grown", "withdrawn",
    "begun", "drunk", "rung", "shrunk", "sunk", "sprung", "stunk",
    "sung", "swum", "spun", "won", "hung", "struck", "stuck",
    "swung", "slung", "clung", "flung", "stung", "strung", "wrung",
    "arisen", "awoken", "borne", "beaten", "begotten", "bidden",
    "bitten", "broken", "chosen", "driven", "eaten", "fallen",
    "forbidden", "forgotten", "forgiven", "forsaken", "frozen",
    "given", "hewn", "hidden", "lain", "laden", "mistaken",
    "proven", "ridden", "risen", "shaken", "shown", "spoken",
    "stolen", "stricken", "stridden", "striven", "sworn", "taken",
    "thriven", "thrown", "trodden", "waken", "waxen", "woven",
    "written",
    "said", "paid", "laid", "made", "heard", "sold", "told",
    "held", "left", "kept", "slept", "wept", "swept", "felt",
    "dealt", "meant", "sent", "spent", "bent", "lent", "built",
    "burnt", "learnt", "spelt", "spoilt", "dwelt",
    "abode", "awoke", "bore", "bound", "bred", "brought", "built",
    "burst", "bought", "cast", "caught", "crept", "dealt", "dug",
    "fed", "felt", "fought", "found", "fled", "flung", "forbade",
    "forecast", "forgot", "forsook", "fought", "froze", "got",
    "ground", "grew", "heard", "hid", "hit", "hurt", "kept",
    "knelt", "knew", "laid", "led", "left", "lent", "let",
    "lit", "lost", "meant", "met", "overcome", "overthrown",
    "paid", "put", "quit", "read", "rid", "rang", "ran",
    "said", "saw", "sought", "sent", "set", "sewed", "shaken",
    "shed", "shone", "shot", "shrunk", "shut", "slain", "slept",
    "slid", "slit", "sown", "sped", "spelt", "spent", "spilt",
    "split", "spread", "stood", "strewn", "strode", "strove",
    "stuck", "stung", "stunk", "swept", "swelled", "swore",
    "swum", "swung", "taught", "thought", "threw", "thrust",
    "told", "took", "tore", "underwent", "understood", "undone",
    "upset", "woken", "wore", "wound", "wove", "wrought"] : List String).map
    String.toList

/-- `ADJECTIVE_EXCEPTIONS` (a `HashSet`; only membership is used). -/
def ADJECTIVE_EXCEPTIONS : List (List Char) :=
  (["tired", "excited", "interested", "bored", "confused", "worried",
    "scared", "frightened", "amazed", "surprised", "shocked", "pleased",
    "satisfied", "disappointed", "frustrated", "embarrassed", "ashamed",
    "annoyed", "delighted", "thrilled", "stunned", "overwhelmed",
    "talented", "gifted", "blessed", "cursed", "aged", "beloved",
    "learned", "skilled", "experienced", "advanced", "supposed",
    "alleged", "concerned", "determined", "devoted", "distinguished",
    "educated", "enlightened", "equipped", "established", "esteemed",
    "experienced", "extended", "informed", "inspired", "involved",
    "limited", "marked", "mixed", "organized", "packed", "prepared",
    "pronounced", "qualified", "refined", "relaxed", "relieved",
    "renowned", "reserved", "respected", "retired", "scared",
    "skilled", "sophisticated", "trained", "troubled", "united",
    "unmarried", "used", "varied", "wasted", "wicked", "worried",
    "wounded"] : List String).map String.toList

/-- `LINKING_VERBS` (a `HashSet`; only membership is used). -/
def LINKING_VERBS : List (List Char) :=
  (["seem", "seems", "seemed", "seeming",
    "appear", "appears", "appeared", "appearing",
    "become", "becomes", "became", "becoming",
    "feel", "feels", "felt", "feeling",
    "look", "looks", "looked", "looking",
    "remain", "remains", "remained", "remaining",
    "stay", "stays", "stayed", "staying",
    "sound", "sounds", "sounded", "sounding",
    "smell", "smells", "smelled", "smelling",
    "taste", "tastes", "tasted", "tasting"] : List String).map String.toList

/-- `is_irregular_past_participle`. -/
def is_irregular_past_participle (word : List Char) : Bool :=
  IRREGULAR_PAST_PARTICIPLES.contains (word.map rustToLowerChar)

/-- `is_adjective_exception`. -/
def is_adjective_exception (word : List Char) : Bool :=
  ADJECTIVE_EXCEPTIONS.contains (word.map rustToLowerChar)

/-- `is_linking_verb`. -/
def is_linking_verb (word : List Char) : Bool :=
  LINKING_VERBS.contains (word.map rustToLowerChar)

/-! ## `error.rs`: the error type -/

/-- `AnalysisError`. Variants wrapping foreign error types (`io::Error`,
`FromUtf8Error`, `serde_json::Error`, `serde_yaml::Error`, `regex::Error`,
`PathBuf`) carry their message/path as a `String`. -/
inductive AnalysisError where
  | IoError (msg : String)
  | ValidationError (msg : String)
  | EncodingError (msg : String)
  | JsonError (msg : String)
  | YamlError (msg : String)
  | ConfigError (msg : String)
  | TimeoutError (seconds : Nat)
  | RegexError (msg : String)
  | FileTooLarge (size : Nat) (max : Nat)
  | DocumentTooShort (words : Nat) (min : Nat)
  | EmptyInput
  | InvalidPath (path : String)
  | ProcessingError (msg : String)
deriving DecidableEq, Repr

/-! ## `grammar/sentence_splitter.rs` -/

/-- The context the splitter extracts around a candidate boundary. -/
structure SentenceContext where
  punctuation : Char
  word_before : List Char
  char_after : Option Char
  text_after : List Char
  is_end_of_text : Bool
deriving DecidableEq, Repr

/-- `SentenceSplitter`. -/
structure SentenceSplitter where
  min_sentence_length : Nat
deriving DecidableEq, Repr

/-- `impl Default for SentenceSplitter`. -/
def SentenceSplitter.default : SentenceSplitter := ⟨3⟩

/-- `SentenceSplitter::new`. -/
def SentenceSplitter.new (min_sentence_length : Nat) : SentenceSplitter :=
  ⟨min_sentence_length⟩

/-- `is_sentence_terminator`. -/
def isSentenceTerminator (c : Char) : Bool := c = '.' || c = '!' || c = '?'

/-- The skip-back loop of `get_word_before`: from `pos`, step left past
whitespace and periods; stop at the first other character (or index 0). -/
def skipBackWs (chars : List Char) : Nat → Nat
  | 0 => 0
  | j + 1 =>
    let c := chars.getD j ' '
    if !(rustIsWhitespace c) && c ≠ '.' then j else skipBackWs chars j

/-- The collection loop of `get_word_before`: from index `i` downward,
collect alphanumeric-or-period characters (highest index first), with the
source's special handling of index 0. -/
def collectWordBack (chars : List Char) : Nat → List Char
  | 0 =>
    let c := chars.getD 0 ' '
    if rustIsAlphanumeric c || c = '.' then [c] else []
  | j + 1 =>
    let c := chars.getD (j + 1) ' '
    if rustIsAlphanumeric c || c = '.' then c :: collectWordBack chars j else []

/-- `get_word_before`. -/
def getWordBefore (chars : List Char) (pos : Nat) : List Char :=
  (collectWordBack chars (skipBackWs chars pos)).reverse

/-- The whitespace-skipping loop of `extract_context`: advance `i` while it
indexes a whitespace character, i.e. add the length of the leading
whitespace run of `chars.drop i`. -/
def skipWsFrom (chars : List Char) (i : Nat) : Nat :=
  i + ((chars.drop i).takeWhile rustIsWhitespace).length

/-- `extract_context`. -/
def extractContext (chars : List Char) (pos : Nat) : SentenceContext :=
  let after_start := skipWsFrom chars (pos + 1)
  { punctuation := chars.getD pos ' '
    word_before := getWordBefore chars pos
    char_after := chars.get? after_start
    text_after := (chars.drop after_start).take 20
    is_end_of_text := pos = chars.length - 1 }

/-- `is_likely_abbreviation`. -/
def isLikelyAbbreviation (word : List Char) : Bool :=
  if word.isEmpty then false
  else
    let word_clean := dropEndWhile (fun c => c = '.') word
    if is_abbreviation word_clean then true
    else if utf8Len word_clean = 1 && rustIsUppercase (word_clean.headD ' ') then true
    else false

/-- `is_likely_initial` (`word.len()` is the byte length). -/
def isLikelyInitial (word : List Char) : Bool :=
  if word.isEmpty then false
  else if utf8Len word = 2 && rustIsUppercase (word.headD ' ') &&
      word.getLast? = some '.' then true
  else reIsMatch INITIALS_PATTERN word

/-- `is_decimal_number`: decimal pattern in the last 10 characters. -/
def isDecimalNumber (sentence : List Char) (_ctx : SentenceContext) : Bool :=
  reIsMatch DECIMAL_PATTERN (sentence.reverse.take 10).reverse

/-- `is_ellipsis`: trailing `...`, or the ellipsis pattern matched against
the REVERSED last five characters (as the source literally does). -/
def isEllipsis (sentence : List Char) : Bool :=
  ['.', '.', '.'].isSuffixOf sentence ||
  reIsMatch ELLIPSIS_PATTERN (sentence.reverse.take 5)

/-- `contains_url_or_email`: patterns matched in the last 50 characters. -/
def containsUrlOrEmail (sentence : List Char) : Bool :=
  let last_part := (sentence.reverse.take 50).reverse
  reIsMatch URL_PATTERN last_part || reIsMatch EMAIL_PATTERN last_part

/-- `check_next_char_capitalization`. -/
def checkNextCharCapitalization (ctx : SentenceContext) : Bool :=
  match ctx.char_after with
  | some next_char =>
    if rustIsUppercase next_char then true
    else if next_char = '"' || next_char = '\'' then
      ((ctx.text_after.get? 1).map rustIsUppercase).getD false
    else true
  | none => true

/-- `is_sentence_boundary`. -/
def isSentenceBoundary (ctx : SentenceContext) (current_sentence : List Char) :
    Bool :=
  if ctx.is_end_of_text then true
  else if ctx.punctuation = '!' || ctx.punctuation = '?' then
    checkNextCharCapitalization ctx
  else if isLikelyAbbreviation ctx.word_before then false
  else if isLikelyInitial ctx.word_before then false
  else if isDecimalNumber current_sentence ctx then false
  else if isEllipsis current_sentence then false
  else if containsUrlOrEmail current_sentence then false
  else
    match ctx.char_after with
    | some next_char =>
      if rustIsUppercase next_char then true
      else if rustIsLowercase next_char then false
      else true
    | none => true

/-- The scanning loop of `SentenceSplitter::split`: `rest` is the unread
suffix, `i` the absolute index of its head in `chars`, `cur` the current
sentence buffer. -/
def splitLoop (sp : SentenceSplitter) (chars : List Char) :
    List Char → Nat → List Char → List (List Char)
  | [], _, cur =>
    let sentence := rustTrim cur
    if sp.min_sentence_length ≤ utf8Len sentence then [sentence] else []
  | c :: rest, i, cur =>
    let cur2 := cur ++ [c]
    if isSentenceTerminator c then
      let ctx := extractContext chars i
      if isSentenceBoundary ctx cur2 then
        let sentence := rustTrim cur2
        (if sp.min_sentence_length ≤ utf8Len sentence then [sentence] else []) ++
          splitLoop sp chars rest (i + 1) []
      else splitLoop sp chars rest (i + 1) cur2
    else splitLoop sp chars rest (i + 1) cur2

/-- The same scan, collecting the raw (untrimmed, unfiltered) segments the
boundary decisions cut the text into. Used to relate `split` to the text. -/
def segmentsLoop (sp : SentenceSplitter) (chars : List Char) :
    List Char → Nat → List Char → List (List Char)
  | [], _, cur => [cur]
  | c :: rest, i, cur =>
    let cur2 := cur ++ [c]
    if isSentenceTerminator c then
      if isSentenceBoundary (extractContext chars i) cur2 then
        cur2 :: segmentsLoop sp chars rest (i + 1) []
      else segmentsLoop sp chars rest (i + 1) cur2
    else segmentsLoop sp chars rest (i + 1) cur2

/-- The raw segments of a text under the splitter's boundary decisions. -/
def splitSegments (sp : SentenceSplitter) (text : List Char) :
    List (List Char) :=
  segmentsLoop sp text text 0 []

/-- `SentenceSplitter::split` (its `Result` is always `Ok`). -/
def SentenceSplitter.split (sp : SentenceSplitter) (text : List Char) :
    Except AnalysisError (List (List Char)) :=
  if (rustTrim text).isEmpty then .ok []
  else .ok (splitLoop sp text text 0 [])

/-! ## `grammar/passive_voice.rs` -/

/-- `PASSIVE_AUXILIARIES`. -/
def PASSIVE_AUXILIARIES : List (List Char) :=
  (["am", "is", "are", "was", "were", "be", "been", "being",
    "get", "gets", "got", "gotten", "getting"] : List String).map String.toList

/-- `PassiveVoiceMatch` (`confidence` is `f64`, modelled as `ℚ`). -/
structure PassiveVoiceMatch where
  text : List Char
  confidence : ℚ
  position : Nat
  auxiliary : List Char
  participle : List Char
  has_by_phrase : Bool
  start_index : Nat
  end_index : Nat
  length : Nat
deriving DecidableEq, Repr

/-- `PassiveVoiceDetector`. -/
structure PassiveVoiceDetector where
  min_confidence : ℚ
deriving DecidableEq, Repr

/-- `impl Default for PassiveVoiceDetector`: `min_confidence = 0.6`. -/
def PassiveVoiceDetector.default : PassiveVoiceDetector := ⟨6/10⟩

/-- `PassiveVoiceDetector::new`. -/
def PassiveVoiceDetector.new (min_confidence : ℚ) : PassiveVoiceDetector :=
  ⟨min_confidence⟩

/-- The char-position map built at the top of `detect`: for each word, a
`(start, end)` byte-offset pair located with `str::find` from the running
offset `search_from`; an unfound word (unreachable in fact) yields
`(search_from, search_from)`. `rem` is the suffix of the text at byte
offset `search_from`. -/
def buildCharPositions : List (List Char) → List Char → Nat → List (Nat × Nat)
  | [], _, _ => []
  | w :: ws, rem, search_from =>
    match findSubIdx rem w with
    | some idx =>
      let start := search_from + utf8Len (rem.take idx)
      let stop := start + utf8Len w
      (start, stop) :: buildCharPositions ws (rem.drop (idx + w.length)) stop
    | none => (search_from, search_from) :: buildCharPositions ws rem search_from

/-- `is_likely_past_participle` (`word.len() > 3` is the byte length). -/
def isLikelyPastParticiple (word : List Char) : Bool :=
  if is_irregular_past_participle word then true
  else if ['e', 'd'].isSuffixOf word && 3 < utf8Len word then
    !is_adjective_exception word
  else false

/-- The scan of `has_by_phrase_nearby` over indices `position+2 ..
min(position+7, words.len())`. -/
def byPhraseLoop (words : List (List Char)) : List Nat → Bool
  | [] => false
  | i :: is2 =>
    let wi := (words.getD i []).map rustToLowerChar
    if wi = "by".toList then
      if i + 1 < words.length then
        let next_word := (words.getD (i + 1) []).map rustToLowerChar
        if !(next_word = "the".toList || next_word = "a".toList ||
            next_word = "an".toList) then true
        else if i + 2 < words.length then true
        else byPhraseLoop words is2
      else byPhraseLoop words is2
    else byPhraseLoop words is2

/-- `has_by_phrase_nearby`. -/
def hasByPhraseNearby (words : List (List Char)) (position : Nat) : Bool :=
  let start := position + 2
  let stop := min (position + 7) words.length
  byPhraseLoop words (List.range' start (stop - start))

/-- `calculate_confidence` (`f64` arithmetic as exact rationals; the final
line is `confidence.max(0.0).min(1.0)`). -/
def calculateConfidence (auxiliary participle : List Char)
    (words : List (List Char)) (position : Nat) : ℚ :=
  let c0 : ℚ := 1/2
  let c1 := if auxiliary = "was".toList || auxiliary = "were".toList ||
      auxiliary = "been".toList then c0 + 2/10 else c0
  let c2 := if is_irregular_past_participle participle then c1 + 2/10 else c1
  let c3 := if is_adjective_exception participle then c2 - 3/10 else c2
  let c4 := if hasByPhraseNearby words position then c3 + 3/10 else c3
  let c5 := if is_linking_verb auxiliary then c4 - 2/10 else c4
  let c6 :=
    if 0 < position then
      let prev_word := (words.getD (position - 1) []).map rustToLowerChar
      if (["the", "a", "an", "this", "that", "these", "those", "my", "your",
          "his", "her", "its", "our", "their"].map String.toList).contains
          prev_word then c5 + 1/10
      else c5
    else c5
  min (max c6 0) 1

/-- `PassiveVoiceDetector::detect` (its `Result` is always `Ok`). -/
def PassiveVoiceDetector.detect (d : PassiveVoiceDetector) (text : List Char) :
    Except AnalysisError (List PassiveVoiceMatch) :=
  let words := splitWhitespace text
  let char_positions := buildCharPositions words text 0
  .ok ((List.range (words.length - 1)).filterMap fun i =>
    let word1 := (words.getD i []).map rustToLowerChar
    let word2 := (words.getD (i + 1) []).map rustToLowerChar
    if PASSIVE_AUXILIARIES.contains word1 then
      let participle := dropEndWhile (fun c => !rustIsAlphanumeric c) word2
      if isLikelyPastParticiple participle then
        let confidence := calculateConfidence word1 participle words i
        if d.min_confidence ≤ confidence then
          let has_by_phrase := hasByPhraseNearby words i
          let match_text := (words.getD i []) ++ ' ' :: (words.getD (i + 1) [])
          let start_index := (char_positions.getD i (0, 0)).1
          let end_index := (char_positions.getD (i + 1) (0, 0)).2
          some { text := match_text
                 confidence := confidence
                 position := i
                 auxiliary := word1
                 participle := participle
                 has_by_phrase := has_by_phrase
                 start_index := start_index
                 end_index := end_index
                 length := end_index - start_index }
        else none
      else none
    else none)

/-- `count_passive_voice`. -/
def PassiveVoiceDetector.count_passive_voice (d : PassiveVoiceDetector)
    (text : List Char) : Except AnalysisError Nat :=
  (d.detect text).map List.length

/-! ## `grammar/checker.rs` -/

/-- `GrammarIssueType`. -/
inductive GrammarIssueType where
  | SubjectVerbAgreement
  | DoubleNegative
  | RunOnSentence
  | SentenceFragment
  | CommaSplice
  | DoubleSpace
  | MissingPunctuation
  | PronoCase
  | VerbTense
deriving DecidableEq, Repr

/-- `Severity`. -/
inductive Severity where
  | Low
  | Medium
  | High
deriving DecidableEq, Repr

/-- `GrammarIssue`. -/
structure GrammarIssue where
  issue_type : GrammarIssueType
  message : String
  sentence_num : Nat
  severity : Severity
  start_index : Nat
  end_index : Nat
  length : Nat
deriving DecidableEq, Repr

/-- `GrammarChecker`. -/
structure GrammarChecker where
  check_subject_verb : Bool
  check_double_negatives : Bool
  check_run_ons : Bool
deriving DecidableEq, Repr

/-- `impl Default for GrammarChecker`. -/
def GrammarChecker.default : GrammarChecker := ⟨true, true, true⟩

/-- `GrammarChecker::new`. -/
def GrammarChecker.new : GrammarChecker := GrammarChecker.default

/-- `has_subject_and_verb` ("simplified check": at least two words). -/
def hasSubjectAndVerb (text : List Char) : Bool :=
  2 ≤ (splitWhitespace text).length

/-- `check_comma_splice`. -/
def checkCommaSplice (sentence : List Char) : Bool :=
  let parts := splitOnChar ',' sentence
  if parts.length < 2 then false
  else 2 < (parts.filter hasSubjectAndVerb).length

/-- The per-sentence body of `GrammarChecker::check`, with the running
byte position `cumulative_pos` and 0-based index `idx`. -/
def checkLoop (g : GrammarChecker) :
    List (List Char) → Nat → Nat → List GrammarIssue
  | [], _, _ => []
  | sentence :: rest, idx, cumulative_pos =>
    let sentence_num := idx + 1
    let lower := sentence.map rustToLowerChar
    let sentence_start := cumulative_pos
    let sentence_end := cumulative_pos + utf8Len sentence
    let doubleSpaceIssues :=
      match reFind DOUBLE_SPACE sentence with
      | some (s, e) =>
        [{ issue_type := .DoubleSpace, message := "Double space detected"
           sentence_num := sentence_num, severity := .Low
           start_index := sentence_start + s, end_index := sentence_start + e
           length := e - s : GrammarIssue }]
      | none => []
    let missingPunctIssues :=
      match (rustTrim sentence).getLast? with
      | some last_char =>
        if !(last_char = '.' || last_char = '!' || last_char = '?') then
          let trimmed_len := utf8Len (rustTrim sentence)
          [{ issue_type := .MissingPunctuation
             message := "Missing end punctuation"
             sentence_num := sentence_num, severity := .Medium
             start_index := sentence_start + trimmed_len
             end_index := sentence_end
             length := sentence_end - (sentence_start + trimmed_len) :
             GrammarIssue }]
        else []
      | none => []
    let subjectVerbIssues :=
      if g.check_subject_verb then
        SUBJECT_VERB_PATTERNS.flatMap fun pm =>
          match reFind pm.1 lower with
          | some (s, e) =>
            [{ issue_type := .SubjectVerbAgreement, message := pm.2
               sentence_num := sentence_num, severity := .High
               start_index := sentence_start + s, end_index := sentence_start + e
               length := e - s : GrammarIssue }]
          | none => []
      else []
    let doubleNegIssues :=
      if g.check_double_negatives then
        match reFind DOUBLE_NEGATIVE lower with
        | some (s, e) =>
          [{ issue_type := .DoubleNegative, message := "Double negative detected"
             sentence_num := sentence_num, severity := .High
             start_index := sentence_start + s, end_index := sentence_start + e
             length := e - s : GrammarIssue }]
        | none => []
      else []
    let runOnIssues :=
      if g.check_run_ons then
        match reFind RUN_ON_INDICATORS lower with
        | some (s, e) =>
          [{ issue_type := .RunOnSentence, message := "Possible run-on sentence"
             sentence_num := sentence_num, severity := .Medium
             start_index := sentence_start + s, end_index := sentence_start + e
             length := e - s : GrammarIssue }]
        | none => []
      else []
    let commaSpliceIssues :=
      if checkCommaSplice sentence then
        match findCharByteOffset ',' sentence with
        | some pos =>
          [{ issue_type := .CommaSplice, message := "Possible comma splice"
             sentence_num := sentence_num, severity := .Medium
             start_index := sentence_start + pos
             end_index := sentence_start + pos + 1
             length := 1 : GrammarIssue }]
        | none =>
          [{ issue_type := .CommaSplice, message := "Possible comma splice"
             sentence_num := sentence_num, severity := .Medium
             start_index := sentence_start, end_index := sentence_end
             length := utf8Len sentence : GrammarIssue }]
      else []
    doubleSpaceIssues ++ missingPunctIssues ++ subjectVerbIssues ++
      doubleNegIssues ++ runOnIssues ++ commaSpliceIssues ++
      checkLoop g rest (idx + 1) (sentence_end + 1)

/-- `GrammarChecker::check` (its `Result` is always `Ok`). -/
def GrammarChecker.check (g : GrammarChecker) (sentences : List (List Char)) :
    Except AnalysisError (List GrammarIssue) :=
  .ok (checkLoop g sentences 0 0)

/-! ## `error.rs`: validation, and the `Utf8Validator` trait -/

/-- The UTF-8 encoding of one character (RFC 3629). -/
def utf8EncodeChar (c : Char) : List Nat :=
  let v := c.toNat
  if v < 0x80 then [v]
  else if v < 0x800 then [0xC0 + v / 0x40, 0x80 + v % 0x40]
  else if v < 0x10000 then
    [0xE0 + v / 0x1000, 0x80 + (v / 0x40) % 0x40, 0x80 + v % 0x40]
  else
    [0xF0 + v / 0x40000, 0x80 + (v / 0x1000) % 0x40, 0x80 + (v / 0x40) % 0x40,
     0x80 + v % 0x40]

/-- The UTF-8 byte sequence of a string: Rust `str::as_bytes`. -/
def utf8Encode (l : List Char) : List Nat := l.flatMap utf8EncodeChar

/-- Is `b` a UTF-8 continuation byte? -/
def isUtf8Cont (b : Nat) : Bool := 0x80 ≤ b && b < 0xC0

/-- The validation performed by `std::str::from_utf8`, as the standard
byte automaton: the second argument lists the `[lo, hi)` ranges the next
continuation bytes must fall in (empty when a lead byte is expected).
Well-formed UTF-8: shortest forms only, no surrogates, max U+10FFFF. -/
def utf8Dfa : List Nat → List (Nat × Nat) → Bool
  | [], expected => expected.isEmpty
  | b :: rest, [] =>
    if b < 0x80 then utf8Dfa rest []
    else if b < 0xC2 then false
    else if b < 0xE0 then utf8Dfa rest [(0x80, 0xC0)]
    else if b = 0xE0 then utf8Dfa rest [(0xA0, 0xC0), (0x80, 0xC0)]
    else if b < 0xED then utf8Dfa rest [(0x80, 0xC0), (0x80, 0xC0)]
    else if b = 0xED then utf8Dfa rest [(0x80, 0xA0), (0x80, 0xC0)]
    else if b < 0xF0 then utf8Dfa rest [(0x80, 0xC0), (0x80, 0xC0)]
    else if b = 0xF0 then
      utf8Dfa rest [(0x90, 0xC0), (0x80, 0xC0), (0x80, 0xC0)]
    else if b < 0xF4 then
      utf8Dfa rest [(0x80, 0xC0), (0x80, 0xC0), (0x80, 0xC0)]
    else if b = 0xF4 then
      utf8Dfa rest [(0x80, 0x90), (0x80, 0xC0), (0x80, 0xC0)]
    else false
  | b :: rest, c :: cs =>
    if c.1 ≤ b && b < c.2 then utf8Dfa rest cs else false

/-- Well-formedness of a UTF-8 byte sequence. -/
def validUtf8 (l : List Nat) : Bool := utf8Dfa l []

/-- The `Utf8Validator` trait's `is_utf8_valid`:
`std::str::from_utf8(self.as_bytes()).is_ok()`. -/
def is_utf8_valid (s : List Char) : Bool := validUtf8 (utf8Encode s)

/-- `ValidationConfig`. -/
structure ValidationConfig where
  max_file_size : Nat
  min_words : Nat
  max_words : Option Nat
  timeout_seconds : Nat
deriving DecidableEq, Repr

/-- `impl Default for ValidationConfig`. -/
def ValidationConfig.default : ValidationConfig :=
  ⟨10 * 1024 * 1024, 10, none, 300⟩

/-- The message of the document-too-long `ValidationError`. -/
def tooLongMsg (word_count maxw : Nat) : String :=
  "Document too long: " ++ toString word_count ++ " words (max: " ++
    toString maxw ++ " words)"

/-- The word count of `validate_text`:
`text.split_whitespace().filter(|w| !w.is_empty()).count()`. -/
def validationWordCount (text : List Char) : Nat :=
  ((splitWhitespace text).filter (fun w => !w.isEmpty)).length

/-- `ValidationConfig::validate_text`. -/
def ValidationConfig.validate_text (vc : ValidationConfig) (text : List Char) :
    Except AnalysisError Unit :=
  if (rustTrim text).isEmpty then .error .EmptyInput
  else
    let size := utf8Len text
    if vc.max_file_size < size then
      .error (.FileTooLarge size vc.max_file_size)
    else
      let word_count := validationWordCount text
      if word_count < vc.min_words then
        .error (.DocumentTooShort word_count vc.min_words)
      else
        let afterMax : Except AnalysisError Unit :=
          if !is_utf8_valid text then
            .error (.ValidationError "Invalid UTF-8 encoding detected")
          else .ok ()
        match vc.max_words with
        | some maxw =>
          if maxw < word_count then .error (.ValidationError (tooLongMsg word_count maxw))
          else afterMax
        | none => afterMax

/-! ## `config.rs`

Only the `validation` and `features` components of `Config` feed the
operations embedded here (`TextAnalyzer::new`, `check_grammar`,
`detect_passive_voice`); the `analysis`, `thresholds` and `output`
components are consumed by out-of-scope collaborators and are omitted. -/

/-- `ValidationSettings`. -/
structure ValidationSettings where
  max_file_size_mb : Nat
  min_words : Nat
  max_words : Option Nat
  timeout_seconds : Nat
deriving DecidableEq, Repr

/-- `FeatureToggles`. -/
structure FeatureToggles where
  grammar_check : Bool
  style_check : Bool
  readability_check : Bool
  consistency_check : Bool
  sensory_analysis : Bool
  cliche_detection : Bool
  jargon_detection : Bool
  echo_detection : Bool
deriving DecidableEq, Repr

/-- `Config` (validation and feature components). -/
structure Config where
  validation : ValidationSettings
  features : FeatureToggles
deriving DecidableEq, Repr

/-- `impl Default for Config` (the embedded components). -/
def Config.default : Config :=
  { validation := ⟨10, 10, none, 300⟩
    features := ⟨true, true, true, true, true, true, true, true⟩ }

/-! ## `analysis_reports.rs`: the report structures the style scorer reads -/

/-- `StickySentence`. -/
structure StickySentence where
  sentence_num : Nat
  glue_percentage : ℚ
  sentence : List Char
  start_index : Nat
  end_index : Nat
  length : Nat
deriving DecidableEq, Repr

/-- `StickySentencesReport`. -/
structure StickySentencesReport where
  overall_glue_index : ℚ
  glue_index : ℚ
  sticky_sentence_count : Nat
  sticky_sentences : List StickySentence
  semi_sticky_sentences : List StickySentence
deriving DecidableEq, Repr

/-- `WordOccurrence`. -/
structure WordOccurrence where
  start_index : Nat
  end_index : Nat
  length : Nat
deriving DecidableEq, Repr

/-- `VagueWord`. -/
structure VagueWord where
  word : List Char
  count : Nat
  occurrences : List WordOccurrence
deriving DecidableEq, Repr

/-- `DictionReport`. -/
structure DictionReport where
  total_vague_words : Nat
  unique_vague_words : Nat
  most_common_vague : List VagueWord
deriving DecidableEq, Repr

/-- `StyleReport`. -/
structure StyleReport where
  passive_voice_count : Nat
  adverb_count : Nat
  hidden_verbs : List String
deriving DecidableEq, Repr

/-! ## `comprehensive_analysis.rs`: the style scorer -/

/-- `ComprehensiveAnalyzer::calculate_style_score`. The two `as usize`
halvings are `(count as f64 * 0.5) as usize`: for every `usize` count this
truncation equals `count / 2` wherever it can influence the capped
deduction, so it is embedded as natural halving. The glue deduction's
`as i32` truncates toward zero; its operand is positive in that branch, so
it is `Int.floor`. -/
def ComprehensiveAnalyzer.calculate_style_score (style : StyleReport)
    (sticky : StickySentencesReport) (diction : DictionReport) : Int :=
  let score : Int := 100
  let score := score - (min (style.passive_voice_count * 2) 20 : Nat)
  let score := score - (min (style.adverb_count / 2) 15 : Nat)
  let score := score - (min (style.hidden_verbs.length * 2) 10 : Nat)
  let score :=
    if 25 < sticky.overall_glue_index then
      score - Int.floor (min (sticky.overall_glue_index - 25) 15)
    else score
  let score := score - (min (diction.total_vague_words / 2) 10 : Nat)
  max score 0

/-! ## `lib.rs`: the `TextAnalyzer` orchestrator and readability -/

/-- Rust `str::split` on the two-character separator `"\n\n"` (used by
`split_into_paragraphs`). Each found separator consumes at least two
characters, so `fuel = l.length + 1` rounds always suffice; the
fuel-exhausted branch is unreachable. -/
def splitOnBlankLineAux : Nat → List Char → List (List Char)
  | 0, l => [l]
  | fuel + 1, l =>
    match findSubIdx l ['\n', '\n'] with
    | some i => l.take i :: splitOnBlankLineAux fuel (l.drop (i + 2))
    | none => [l]

/-- Rust `str::split` on `"\n\n"`. -/
def splitOnBlankLine (l : List Char) : List (List Char) :=
  splitOnBlankLineAux (l.length + 1) l

/-- `TextAnalyzer::split_into_paragraphs`. -/
def splitIntoParagraphs (text : List Char) : List (List Char) :=
  ((splitOnBlankLine text).map rustTrim).filter (fun p => !p.isEmpty)

/-- `TextAnalyzer::extract_words` (its `Result` is always `Ok`). -/
def extractWords (text : List Char) : Except AnalysisError (List (List Char)) :=
  .ok (reFindIter WORD_EXTRACT (text.map rustToLowerChar))

/-- Modelled from the spec: `src/src/dictionaries/syllable_dict.rs` is
declared by `dictionaries/mod.rs` but absent from the sources, so
`count_syllables` is modelled from spec §4.6: "dictionary lookup;
fallback — count transitions from non-vowel to vowel across the word,
subtract 1 for a trailing silent e when the running count is >1, floor
at 1". The dictionary itself is unavailable; only the heuristic fallback
is modelled. No theorem below depends on the value this returns. -/
def count_syllables (word : List Char) : Nat :=
  let isVowel : Char → Bool := fun c =>
    c = 'a' || c = 'e' || c = 'i' || c = 'o' || c = 'u' || c = 'y'
  let transitions :=
    (word.zip (' ' :: word)).foldl
      (fun n cp => if isVowel cp.1 && !isVowel cp.2 then n + 1 else n) 0
  let adjusted :=
    if word.getLast? = some 'e' && 1 < transitions then transitions - 1
    else transitions
  max adjusted 1

/-- `f64::round`: round half away from zero (nonnegative operands here). -/
def f64Round (x : ℚ) : ℚ :=
  if 0 ≤ x then ((Int.floor (x + 1/2) : Int) : ℚ)
  else -((Int.floor (-x + 1/2) : Int) : ℚ)

/-- `TextAnalyzer::round`: round to `decimals` decimal places. -/
def rustRound (value : ℚ) (decimals : Nat) : ℚ :=
  let multiplier : ℚ := (10 : ℚ) ^ decimals
  f64Round (value * multiplier) / multiplier

/-- A computable rational stand-in for `f64::sqrt`, used only inside the
SMOG value; no claim below constrains that value, only its presence. -/
def ratSqrtApprox (q : ℚ) : ℚ :=
  ((Nat.sqrt (q.num.toNat * q.den) : ℚ)) / (q.den : ℚ)

/-- `ReadabilityMetrics`. -/
structure ReadabilityMetrics where
  flesch_reading_ease : ℚ
  flesch_kincaid_grade : ℚ
  smog_index : Option ℚ
  avg_words_per_sentence : ℚ
  avg_syllables_per_word : ℚ
deriving DecidableEq, Repr

/-- `impl Default for ReadabilityMetrics`. -/
def ReadabilityMetrics.default : ReadabilityMetrics := ⟨0, 0, none, 0, 0⟩

/-- `TextAnalyzer::calculate_smog`. -/
def calculateSmog (sentences : List (List Char)) : ℚ :=
  if sentences.isEmpty then 0
  else
    let polysyllable_count :=
      ((sentences.take 30).map fun sentence =>
        ((reFindIter WORD_EXTRACT (sentence.map rustToLowerChar)).filter
          (fun w => 3 ≤ count_syllables w)).length).sum
    10430/10000 *
      ratSqrtApprox ((polysyllable_count : ℚ) * 30 /
        ((min sentences.length 30 : Nat) : ℚ)) + 31291/10000

/-- `TextAnalyzer`. -/
structure TextAnalyzer where
  text : List Char
  sentences : List (List Char)
  paragraphs : List (List Char)
  words : List (List Char)
  config : Config
  sentence_splitter : SentenceSplitter
  passive_detector : PassiveVoiceDetector
  grammar_checker : GrammarChecker
deriving DecidableEq, Repr

/-- The `ValidationConfig` that `TextAnalyzer::new` builds from its
`Config` (`max_file_size = max_file_size_mb * 1024 * 1024`). -/
def validatorOfConfig (config : Config) : ValidationConfig :=
  { max_file_size := config.validation.max_file_size_mb * 1024 * 1024
    min_words := config.validation.min_words
    max_words := config.validation.max_words
    timeout_seconds := config.validation.timeout_seconds }

/-- `TextAnalyzer::new`. -/
def TextAnalyzer.new (text : List Char) (config : Config) :
    Except AnalysisError TextAnalyzer :=
  let validator : ValidationConfig := validatorOfConfig config
  match validator.validate_text text with
  | .error e => .error e
  | .ok _ =>
    let sentence_splitter := SentenceSplitter.default
    match sentence_splitter.split text with
    | .error e => .error e
    | .ok sentences =>
      let paragraphs := splitIntoParagraphs text
      match extractWords text with
      | .error e => .error e
      | .ok words =>
        .ok { text := text, sentences := sentences, paragraphs := paragraphs
              words := words, config := config
              sentence_splitter := sentence_splitter
              passive_detector := PassiveVoiceDetector.default
              grammar_checker := GrammarChecker.default }

/-- `TextAnalyzer::with_default_config`. -/
def TextAnalyzer.with_default_config (text : List Char) :
    Except AnalysisError TextAnalyzer :=
  TextAnalyzer.new text Config.default

/-- `TextAnalyzer::readability_metrics` (its `Result` is always `Ok`). -/
def TextAnalyzer.readability_metrics (a : TextAnalyzer) :
    Except AnalysisError ReadabilityMetrics :=
  let total_sentences := a.sentences.length
  let total_words := a.words.length
  if total_sentences = 0 || total_words = 0 then .ok ReadabilityMetrics.default
  else
    let total_syllables := (a.words.map count_syllables).sum
    let words_per_sentence : ℚ := (total_words : ℚ) / (total_sentences : ℚ)
    let syllables_per_word : ℚ := (total_syllables : ℚ) / (total_words : ℚ)
    let reading_ease0 : ℚ :=
      206835/1000 - 1015/1000 * words_per_sentence - 846/10 * syllables_per_word
    let reading_ease := min (max reading_ease0 0) 100
    let grade_level :=
      max (39/100 * words_per_sentence + 118/10 * syllables_per_word - 1559/100) 0
    let smog_index :=
      if 30 ≤ total_sentences then some (calculateSmog a.sentences) else none
    .ok { flesch_reading_ease := rustRound reading_ease 1
          flesch_kincaid_grade := rustRound grade_level 1
          smog_index := smog_index
          avg_words_per_sentence := rustRound words_per_sentence 1
          avg_syllables_per_word := rustRound syllables_per_word 2 }

/-- `TextAnalyzer::check_grammar`. -/
def TextAnalyzer.check_grammar (a : TextAnalyzer) :
    Except AnalysisError (List GrammarIssue) :=
  if !a.config.features.grammar_check then .ok []
  else a.grammar_checker.check a.sentences

/-- `TextAnalyzer::detect_passive_voice`. -/
def TextAnalyzer.detect_passive_voice (a : TextAnalyzer) :
    Except AnalysisError (List PassiveVoiceMatch) :=
  if !a.config.features.style_check then .ok []
  else a.passive_detector.detect a.text

/-! ## Helper lemmas: lengths and trimming -/

theorem if_no {c : Prop} [Decidable c] {α : Sort u} {a b : α} (hnc : ¬c) :
    (if c then a else b) = b := if_neg hnc

theorem utf8Len_append (a b : List Char) :
    utf8Len (a ++ b) = utf8Len a + utf8Len b := by
  simp [utf8Len]

theorem utf8Len_reverse (l : List Char) : utf8Len l.reverse = utf8Len l := by
  simp only [utf8Len, List.map_reverse, List.sum_reverse]

theorem utf8Len_dropWhile_le (p : Char → Bool) (l : List Char) :
    utf8Len (l.dropWhile p) ≤ utf8Len l := by
  induction l with
  | nil => simp [List.dropWhile]
  | cons c t ih =>
    by_cases h : p c
    · rw [List.dropWhile_cons_of_pos h]
      refine ih.trans ?_
      simp [utf8Len]
    · rw [List.dropWhile_cons_of_neg h]

theorem rustTrimEnd_eq_rdropWhile (l : List Char) :
    rustTrimEnd l = List.rdropWhile rustIsWhitespace l := rfl

theorem utf8Len_rustTrim_le (l : List Char) :
    utf8Len (rustTrim l) ≤ utf8Len l := by
  unfold rustTrim rustTrimStart
  rw [rustTrimEnd_eq_rdropWhile]
  unfold List.rdropWhile
  calc utf8Len (List.dropWhile rustIsWhitespace
          (List.dropWhile rustIsWhitespace l).reverse).reverse
      = utf8Len (List.dropWhile rustIsWhitespace
          (List.dropWhile rustIsWhitespace l).reverse) := utf8Len_reverse _
    _ ≤ utf8Len (List.dropWhile rustIsWhitespace l).reverse :=
        utf8Len_dropWhile_le _ _
    _ = utf8Len (List.dropWhile rustIsWhitespace l) := utf8Len_reverse _
    _ ≤ utf8Len l := utf8Len_dropWhile_le _ _

theorem rustTrimStart_of_trimStart_fixed (l : List Char)
    (h : rustTrimStart l = l) :
    rustTrimStart (rustTrimEnd l) = rustTrimEnd l := by
  rw [rustTrimEnd_eq_rdropWhile]
  unfold rustTrimStart at *
  rcases List.rdropWhile_prefix (p := rustIsWhitespace) (l := l) with ⟨t, ht⟩
  cases hrd : List.rdropWhile rustIsWhitespace l with
  | nil => simp
  | cons a as =>
    rw [hrd] at ht
    have hl : l = a :: (as ++ t) := by rw [← ht]; simp
    have ha : ¬ rustIsWhitespace a := by
      intro hws
      rw [hl, List.dropWhile_cons_of_pos hws] at h
      have hlen := congrArg List.length h
      have hle :=
        (List.dropWhile_suffix (l := as ++ t) rustIsWhitespace).sublist.length_le
      simp only [List.length_cons] at hlen
      omega
    rw [List.dropWhile_cons_of_neg ha]

theorem rustTrim_idem (l : List Char) : rustTrim (rustTrim l) = rustTrim l := by
  unfold rustTrim
  rw [rustTrimStart_of_trimStart_fixed (rustTrimStart l)
    (by unfold rustTrimStart; exact List.dropWhile_idempotent _ _)]
  rw [rustTrimEnd_eq_rdropWhile, rustTrimEnd_eq_rdropWhile]
  exact List.rdropWhile_idempotent _ _

theorem rustTrim_nil_all_ws (l : List Char) (h : rustTrim l = []) :
    ∀ c ∈ l, rustIsWhitespace c := by
  unfold rustTrim rustTrimStart at h
  rw [rustTrimEnd_eq_rdropWhile] at h
  have hdrop := List.rdropWhile_eq_nil_iff.mp h
  intro c hc
  rcases List.mem_append.mp
      ((List.takeWhile_append_dropWhile (p := rustIsWhitespace) (l := l)) ▸ hc)
    with hc1 | hc2
  · exact List.mem_takeWhile_imp hc1
  · exact hdrop c hc2

/-! ## Helper lemmas: the splitter's segments -/

theorem ws_not_terminator (c : Char) (h : rustIsWhitespace c = true) :
    isSentenceTerminator c = false := by
  by_cases h1 : c = '.'
  · subst h1; exact absurd h (by decide)
  · by_cases h2 : c = '!'
    · subst h2; exact absurd h (by decide)
    · by_cases h3 : c = '?'
      · subst h3; exact absurd h (by decide)
      · simp [isSentenceTerminator, h1, h2, h3]

theorem segmentsLoop_join (sp : SentenceSplitter) (chars : List Char) :
    ∀ (rest : List Char) (i : Nat) (cur : List Char),
      (segmentsLoop sp chars rest i cur).join = cur ++ rest := by
  intro rest
  induction rest with
  | nil => intro i cur; simp [segmentsLoop]
  | cons c t ih =>
    intro i cur
    unfold segmentsLoop
    by_cases hterm : isSentenceTerminator c
    · by_cases hb : isSentenceBoundary (extractContext chars i) (cur ++ [c])
      · simp [hterm, hb, ih]
      · simp [hterm, hb, ih]
    · simp [hterm, ih]

theorem splitLoop_eq_filter (sp : SentenceSplitter) (chars : List Char) :
    ∀ (rest : List Char) (i : Nat) (cur : List Char),
      splitLoop sp chars rest i cur =
        ((segmentsLoop sp chars rest i cur).map rustTrim).filter
          (fun s => decide (sp.min_sentence_length ≤ utf8Len s)) := by
  intro rest
  induction rest with
  | nil =>
    intro i cur
    unfold splitLoop segmentsLoop
    by_cases h : sp.min_sentence_length ≤ utf8Len (rustTrim cur)
    · simp [h]
    · simp [h]
  | cons c t ih =>
    intro i cur
    unfold splitLoop segmentsLoop
    by_cases hterm : isSentenceTerminator c
    · by_cases hb : isSentenceBoundary (extractContext chars i) (cur ++ [c])
      · by_cases h : sp.min_sentence_length ≤ utf8Len (rustTrim (cur ++ [c]))
        · simp [hterm, hb, h, ih]
        · simp [hterm, hb, h, ih]
      · simp [hterm, hb, ih]
    · simp [hterm, ih]

theorem segmentsLoop_all_ws (sp : SentenceSplitter) (chars : List Char) :
    ∀ (rest : List Char) (i : Nat) (cur : List Char),
      (∀ c ∈ rest, rustIsWhitespace c) →
      segmentsLoop sp chars rest i cur = [cur ++ rest] := by
  intro rest
  induction rest with
  | nil => intro i cur _; simp [segmentsLoop]
  | cons c t ih =>
    intro i cur hws
    unfold segmentsLoop
    rw [ws_not_terminator c (hws c (by simp))]
    simp only [Bool.false_eq_true, if_false]
    rw [ih (i + 1) (cur ++ [c]) (fun d hd => hws d (by simp [hd]))]
    simp

/-! ## Claim theorems: sentence splitter -/

deriving instance DecidableEq for Except

/-- C9 (amended): the raw segments the boundary scan cuts the text into
concatenate exactly to the original text, and `split` returns exactly those
segments trimmed, with every segment whose trimmed UTF-8 byte length is
below `min_sentence_length` dropped (so the non-whitespace characters of
dropped short segments are lost from the concatenation; whitespace between
sentences is removed by trimming). -/
theorem claim_C9_split_round_trip (sp : SentenceSplitter) (text : List Char) :
    (splitSegments sp text).join = text ∧
    (1 ≤ sp.min_sentence_length →
      sp.split text =
        .ok (((splitSegments sp text).map rustTrim).filter
          (fun s => decide (sp.min_sentence_length ≤ utf8Len s)))) := by
  constructor
  · simpa using segmentsLoop_join sp text text 0 []
  · intro hmin
    unfold SentenceSplitter.split
    by_cases hempty : (rustTrim text).isEmpty
    · rw [if_pos hempty]
      have hnil : rustTrim text = [] := by
        cases h : rustTrim text with
        | nil => rfl
        | cons a b => rw [h] at hempty; simp [List.isEmpty] at hempty
      have hws : ∀ c ∈ text, rustIsWhitespace c := rustTrim_nil_all_ws text hnil
      unfold splitSegments
      rw [segmentsLoop_all_ws sp text text 0 [] hws]
      simp only [List.nil_append, List.map_cons, List.map_nil, hnil,
        List.filter_cons, List.filter_nil]
      have hdec : (decide (sp.min_sentence_length ≤ utf8Len [])) = false := by
        simp [utf8Len]
        omega
      rw [hdec]
      simp
    · rw [if_neg hempty]
      unfold splitSegments
      exact congrArg Except.ok (splitLoop_eq_filter sp text text 0 [])

/-- C9 counterexample: for `"x? Hello."` the candidate sentence `"x?"` is
dropped (trimmed byte length 2 < 3), so the non-whitespace character `x` of
the input is absent from the concatenation of the emitted sentences: the
round-trip claim fails as stated. -/
theorem claim_C9_counterexample :
    SentenceSplitter.default.split "x? Hello.".toList =
      Except.ok ["Hello.".toList] ∧
    'x' ∈ "x? Hello.".toList ∧ rustIsWhitespace 'x' = false ∧
    'x' ∉ (["Hello.".toList] : List (List Char)).join := by decide

/-- C7 (amended): `split` never errors, every emitted sentence is trimmed,
and every emitted sentence has at least `min_sentence_length` UTF-8 BYTES
(not characters) after trimming; shorter candidates are silently dropped. -/
theorem claim_C7_sentences_trimmed_min_len (sp : SentenceSplitter)
    (text : List Char) :
    ((sp.split text).isOk = true) ∧
    (∀ l s, sp.split text = .ok l → s ∈ l →
      rustTrim s = s ∧ sp.min_sentence_length ≤ utf8Len s) := by
  constructor
  · unfold SentenceSplitter.split
    by_cases h : (rustTrim text).isEmpty <;> simp [h, Except.isOk, Except.toBool]
  · intro l s hok hs
    unfold SentenceSplitter.split at hok
    by_cases hempty : (rustTrim text).isEmpty
    · rw [if_pos hempty] at hok
      obtain rfl : (([] : List (List Char)) = l) := by
        injection hok
      simp at hs
    · rw [if_neg hempty] at hok
      obtain rfl : splitLoop sp text text 0 [] = l := by injection hok
      rw [splitLoop_eq_filter sp text text 0 []] at hs
      obtain ⟨hmap, hlen⟩ := List.mem_filter.mp hs
      rcases List.mem_map.mp hmap with ⟨seg, _, rfl⟩
      exact ⟨rustTrim_idem seg, by simpa using hlen⟩

/-- C7 witness: the theorem applied to the default splitter on a concrete
text, with its hypotheses discharged at the emitted sentence `"Hi."`. -/
theorem claim_C7_witness :
    ((SentenceSplitter.default.split "Hi. Yes.".toList).isOk = true) ∧
    (rustTrim "Hi.".toList = "Hi.".toList ∧
      SentenceSplitter.default.min_sentence_length ≤ utf8Len "Hi.".toList) :=
  ⟨(claim_C7_sentences_trimmed_min_len SentenceSplitter.default
      "Hi. Yes.".toList).1,
   (claim_C7_sentences_trimmed_min_len SentenceSplitter.default
      "Hi. Yes.".toList).2 ["Hi.".toList, "Yes.".toList] "Hi.".toList
      (by decide) (by decide)⟩

/-- C7 counterexample: the minimum length is measured in bytes, not
characters: the two-character text `"éé"` (4 UTF-8 bytes) is emitted as a
sentence although it has fewer than `min_sentence_length = 3` characters. -/
theorem claim_C7_counterexample :
    SentenceSplitter.default.split "éé".toList = Except.ok ["éé".toList] ∧
    "éé".toList.length = 2 ∧
    2 < SentenceSplitter.default.min_sentence_length := by decide

/-- C2: the default splitter returns exactly 2 sentences for the
abbreviation text and exactly 3 for the question/exclamation text. -/
theorem claim_C2_sentence_counts :
    (SentenceSplitter.default.split
        "Dr. Smith went to the store. He bought milk.".toList).map
      List.length = Except.ok 2 ∧
    (SentenceSplitter.default.split
        "Are you serious? I can't believe it! This is amazing.".toList).map
      List.length = Except.ok 3 := by decide

/-! ## Claim theorems: the `!`/`?` boundary rule -/

/-- C6 (amended): at a position whose terminator is `!` or `?`, the
splitter's decision is NOT governed by lowercase-ness of the next
character: the position fails to be a boundary exactly when the text does
not end there, the next non-whitespace character is a quote (`"` or `'`),
and the character right after that quote is absent or not uppercase. In
particular a lowercase next character still yields a boundary. -/
theorem claim_C6_exclamation_question_boundary (chars : List Char) (pos : Nat)
    (cur : List Char)
    (hpunct : (extractContext chars pos).punctuation = '!' ∨
      (extractContext chars pos).punctuation = '?') :
    isSentenceBoundary (extractContext chars pos) cur = false ↔
      ((extractContext chars pos).is_end_of_text = false ∧
        ∃ q, (extractContext chars pos).char_after = some q ∧
          (q = '"' ∨ q = '\'') ∧
          (((extractContext chars pos).text_after.get? 1).map
            rustIsUppercase).getD false = false) := by
  generalize hctx : extractContext chars pos = ctx
  rw [hctx] at hpunct
  unfold isSentenceBoundary
  by_cases hend : ctx.is_end_of_text
  · simp [hend]
  · have hp : (ctx.punctuation = '!' || ctx.punctuation = '?') = true := by
      rcases hpunct with h | h <;> simp [h]
    have hendf : ctx.is_end_of_text = false := by
      revert hend; cases ctx.is_end_of_text <;> simp
    rw [hendf]
    simp only [Bool.false_eq_true, if_false, hp, if_true]
    unfold checkNextCharCapitalization
    cases hca : ctx.char_after with
    | none => simp
    | some q =>
      by_cases hq : rustIsUppercase q
      · simp only [hq, if_true]
        constructor
        · intro h; cases h
        · rintro ⟨_, q2, hq2, hquote, _⟩
          obtain rfl : q = q2 := Option.some.inj hq2
          rcases hquote with rfl | rfl <;> exact absurd hq (by decide)
      · have hqf : rustIsUppercase q = false := by
          revert hq; cases rustIsUppercase q <;> simp
        simp only [hqf, Bool.false_eq_true, if_false]
        by_cases hquote : q = '"' || q = '\''
        · rw [if_pos hquote]
          constructor
          · intro h
            refine ⟨by trivial, q, by trivial, ?_, h⟩
            revert hquote
            by_cases h1 : q = '"'
            · intro _; exact Or.inl h1
            · by_cases h2 : q = '\''
              · intro _; exact Or.inr h2
              · simp [h1, h2]
          · rintro ⟨_, q2, hq2, _, hfalse⟩
            obtain rfl : q = q2 := Option.some.inj hq2
            exact hfalse
        · rw [if_neg hquote]
          constructor
          · intro h; cases h
          · rintro ⟨_, q2, hq2, hquote2, _⟩
            obtain rfl : q = q2 := Option.some.inj hq2
            rcases hquote2 with rfl | rfl <;> simp at hquote

/-- C6 witness: the theorem applied at the `!` of `"Go! and stop."`,
whose next non-whitespace character `a` is lowercase: the boundary
equation does not reduce to `false`, i.e. the position IS a boundary. -/
theorem claim_C6_witness :
    isSentenceBoundary (extractContext "Go! and stop.".toList 2)
        "Go!".toList = false ↔
      ((extractContext "Go! and stop.".toList 2).is_end_of_text = false ∧
        ∃ q, (extractContext "Go! and stop.".toList 2).char_after = some q ∧
          (q = '"' ∨ q = '\'') ∧
          (((extractContext "Go! and stop.".toList 2).text_after.get? 1).map
            rustIsUppercase).getD false = false) :=
  claim_C6_exclamation_question_boundary "Go! and stop.".toList 2 "Go!".toList
    (Or.inl (by decide))

/-- C6 counterexample: in `"Hi! wow."` the character after the `!` is the
lowercase `w`, yet the splitter DOES treat the `!` as a boundary (the text
splits into two sentences), contradicting the claim that a lowercase next
character prevents the boundary. -/
theorem claim_C6_counterexample :
    (extractContext "Hi! wow.".toList 2).punctuation = '!' ∧
    (extractContext "Hi! wow.".toList 2).char_after = some 'w' ∧
    rustIsLowercase 'w' = true ∧
    isSentenceBoundary (extractContext "Hi! wow.".toList 2) "Hi!".toList
      = true ∧
    SentenceSplitter.default.split "Hi! wow.".toList =
      Except.ok ["Hi!".toList, "wow.".toList] := by decide

/-! ## Helper lemmas: byte spans -/

theorem reFindAux_start_le_end (re : Re) :
    ∀ (chars : List Char) (prev : Option Char) (pos s e : Nat),
      reFindAux re chars prev pos = some (s, e) → s ≤ e := by
  intro chars
  induction chars with
  | nil =>
    intro prev pos s e h
    unfold reFindAux at h
    cases hm : matchHere re [] prev with
    | some k => rw [hm] at h; injection h with h2; cases h2; omega
    | none => rw [hm] at h; cases h
  | cons c rest ih =>
    intro prev pos s e h
    unfold reFindAux at h
    cases hm : matchHere re (c :: rest) prev with
    | some k =>
      rw [hm] at h
      injection h with h2
      rw [Prod.mk.injEq] at h2
      omega
    | none =>
      rw [hm] at h
      exact ih (some c) (pos + c.utf8Size) s e h

theorem reFind_start_le_end (re : Re) (chars : List Char) (s e : Nat)
    (h : reFind re chars = some (s, e)) : s ≤ e :=
  reFindAux_start_le_end re chars none 0 s e h

theorem findSubIdx_isPrefix :
    ∀ (hay needle : List Char) (i : Nat),
      findSubIdx hay needle = some i → needle.isPrefixOf (hay.drop i) := by
  intro hay
  induction hay with
  | nil =>
    intro needle i h
    unfold findSubIdx at h
    by_cases hp : needle.isPrefixOf ([] : List Char)
    · rw [if_pos hp] at h
      injection h with h2
      cases h2
      exact hp
    · rw [if_neg hp] at h
      cases h
  | cons c t ih =>
    intro needle i h
    unfold findSubIdx at h
    by_cases hp : needle.isPrefixOf (c :: t)
    · rw [if_pos hp] at h
      injection h with h2
      cases h2
      exact hp
    · rw [if_neg hp] at h
      simp only [Option.map_eq_some'] at h
      rcases h with ⟨j, hj, rfl⟩
      simpa using ih needle j hj

theorem utf8Len_decomp_of_find (rem w : List Char) (idx : Nat)
    (h : findSubIdx rem w = some idx) :
    utf8Len rem =
      utf8Len (rem.take idx) + utf8Len w + utf8Len (rem.drop (idx + w.length)) := by
  have hpre := findSubIdx_isPrefix rem w idx h
  rw [List.isPrefixOf_iff_prefix] at hpre
  rcases hpre with ⟨t2, ht2⟩
  have hdrop : rem.drop (idx + w.length) = t2 := by
    calc rem.drop (idx + w.length) = (rem.drop idx).drop w.length := by
          rw [List.drop_drop]
      _ = (w ++ t2).drop w.length := by rw [ht2]
      _ = t2 := List.drop_left w t2
  calc utf8Len rem = utf8Len (rem.take idx ++ rem.drop idx) := by
        rw [List.take_append_drop]
    _ = utf8Len (rem.take idx) + utf8Len (rem.drop idx) := utf8Len_append _ _
    _ = utf8Len (rem.take idx) + (utf8Len w + utf8Len t2) := by
        rw [← ht2, utf8Len_append]
    _ = utf8Len (rem.take idx) + utf8Len w + utf8Len (rem.drop (idx + w.length)) := by
        rw [hdrop]; ring

theorem buildCharPositions_invariant :
    ∀ (ws : List (List Char)) (rem : List Char) (sf : Nat),
      (∀ p ∈ buildCharPositions ws rem sf,
        sf ≤ p.1 ∧ p.1 ≤ p.2 ∧ p.2 ≤ sf + utf8Len rem) ∧
      List.Pairwise (fun p q : Nat × Nat => p.2 ≤ q.1)
        (buildCharPositions ws rem sf) := by
  intro ws
  induction ws with
  | nil => intro rem sf; simp [buildCharPositions]
  | cons w ws2 ih =>
    intro rem sf
    unfold buildCharPositions
    cases hf : findSubIdx rem w with
    | some idx =>
      have hdec := utf8Len_decomp_of_find rem w idx hf
      have htake : utf8Len (rem.take idx) + utf8Len w ≤ utf8Len rem := by omega
      rcases ih (rem.drop (idx + w.length))
          (sf + utf8Len (List.take idx rem) + utf8Len w) with ⟨hb, hpw⟩
      constructor
      · intro p hp
        rcases List.mem_cons.mp hp with rfl | hp2
        · simp only []
          omega
        · have := hb p hp2
          omega
      · refine List.Pairwise.cons ?_ hpw
        intro q hq
        have := (hb q hq).1
        simp only []
        omega
    | none =>
      rcases ih rem sf with ⟨hb, hpw⟩
      constructor
      · intro p hp
        rcases List.mem_cons.mp hp with rfl | hp2
        · simp only []
          omega
        · exact hb p hp2
      · refine List.Pairwise.cons ?_ hpw
        intro q hq
        have := (hb q hq).1
        simp only []
        omega

theorem buildCharPositions_length :
    ∀ (ws : List (List Char)) (rem : List Char) (sf : Nat),
      (buildCharPositions ws rem sf).length = ws.length := by
  intro ws
  induction ws with
  | nil => intro rem sf; simp [buildCharPositions]
  | cons w ws2 ih =>
    intro rem sf
    unfold buildCharPositions
    cases findSubIdx rem w with
    | some idx => simp [ih]
    | none => simp [ih]

theorem checkLoop_start_le_end (g : GrammarChecker) :
    ∀ (sentences : List (List Char)) (idx cp : Nat) (issue : GrammarIssue),
      issue ∈ checkLoop g sentences idx cp →
      issue.start_index ≤ issue.end_index := by
  intro sentences
  induction sentences with
  | nil => intro idx cp issue h; simp [checkLoop] at h
  | cons sentence rest ih =>
    intro idx cp issue h
    unfold checkLoop at h
    simp only [List.mem_append] at h
    rcases h with (((((h1 | hB) | h2) | h3) | h4) | h5) | h6
    rotate_right
    · exact ih (idx + 1) (cp + utf8Len sentence + 1) issue h6
    · cases hf : reFind DOUBLE_SPACE sentence with
      | some se =>
        rw [hf] at h1
        rcases List.mem_singleton.mp h1 with rfl
        have := reFind_start_le_end DOUBLE_SPACE sentence se.1 se.2
          (by rw [hf])
        simp only []
        omega
      | none => rw [hf] at h1; cases h1
    · cases hl : (rustTrim sentence).getLast? with
      | some last_char =>
        rw [hl] at hB
        dsimp only at hB
        by_cases hpunct : !(last_char = '.' || last_char = '!' ||
            last_char = '?')
        · rw [if_pos hpunct] at hB
          rcases List.mem_singleton.mp hB with rfl
          have := utf8Len_rustTrim_le sentence
          simp only []
          omega
        · rw [if_neg hpunct] at hB
          cases hB
      | none => rw [hl] at hB; cases hB
    · by_cases htog : g.check_subject_verb
      · rw [if_pos htog] at h2
        rcases List.mem_flatMap.mp h2 with ⟨pm, _, hmem⟩
        cases hf : reFind pm.1 (sentence.map rustToLowerChar) with
        | some se =>
          rw [hf] at hmem
          rcases List.mem_singleton.mp hmem with rfl
          have := reFind_start_le_end pm.1 (sentence.map rustToLowerChar)
            se.1 se.2 (by rw [hf])
          simp only []
          omega
        | none => rw [hf] at hmem; cases hmem
      · rw [if_neg htog] at h2; cases h2
    · by_cases htog : g.check_double_negatives
      · rw [if_pos htog] at h3
        cases hf : reFind DOUBLE_NEGATIVE (sentence.map rustToLowerChar) with
        | some se =>
          rw [hf] at h3
          rcases List.mem_singleton.mp h3 with rfl
          have := reFind_start_le_end DOUBLE_NEGATIVE
            (sentence.map rustToLowerChar) se.1 se.2 (by rw [hf])
          simp only []
          omega
        | none => rw [hf] at h3; cases h3
      · rw [if_neg htog] at h3; cases h3
    · by_cases htog : g.check_run_ons
      · rw [if_pos htog] at h4
        cases hf : reFind RUN_ON_INDICATORS (sentence.map rustToLowerChar) with
        | some se =>
          rw [hf] at h4
          rcases List.mem_singleton.mp h4 with rfl
          have := reFind_start_le_end RUN_ON_INDICATORS
            (sentence.map rustToLowerChar) se.1 se.2 (by rw [hf])
          simp only []
          omega
        | none => rw [hf] at h4; cases h4
      · rw [if_neg htog] at h4; cases h4
    · by_cases hcs : checkCommaSplice sentence
      · rw [if_pos hcs] at h5
        cases hf : findCharByteOffset ',' sentence with
        | some pos =>
          rw [hf] at h5
          rcases List.mem_singleton.mp h5 with rfl
          simp only []
          omega
        | none =>
          rw [hf] at h5
          rcases List.mem_singleton.mp h5 with rfl
          simp only []
          omega
      · rw [if_neg hcs] at h5; cases h5

/-! ## Claim theorems: span bounds -/

/-- C1 (amended): spans are UTF-8 BYTE offsets, not character offsets.
Every `PassiveVoiceMatch` of `detect` satisfies
`start_index ≤ end_index ≤ byte length of the text`; every `GrammarIssue`
of `check` satisfies `start_index ≤ end_index` (the checker's offsets are
reconstructed from cumulative sentence lengths — "best effort without
original text" per the source — and are not bounded by the document). -/
theorem claim_C1_spans_are_byte_offsets (d : PassiveVoiceDetector)
    (text : List Char) (g : GrammarChecker) (sentences : List (List Char)) :
    (∀ ms m, d.detect text = .ok ms → m ∈ ms →
      m.start_index ≤ m.end_index ∧ m.end_index ≤ utf8Len text) ∧
    (∀ iss issue, g.check sentences = .ok iss → issue ∈ iss →
      issue.start_index ≤ issue.end_index) := by
  constructor
  · intro ms m hok hm
    unfold PassiveVoiceDetector.detect at hok
    obtain rfl :
        ((List.range ((splitWhitespace text).length - 1)).filterMap fun i =>
          let word1 := ((splitWhitespace text).getD i []).map rustToLowerChar
          let word2 := ((splitWhitespace text).getD (i + 1) []).map rustToLowerChar
          if PASSIVE_AUXILIARIES.contains word1 then
            let participle := dropEndWhile (fun c => !rustIsAlphanumeric c) word2
            if isLikelyPastParticiple participle then
              let confidence :=
                calculateConfidence word1 participle (splitWhitespace text) i
              if d.min_confidence ≤ confidence then
                let has_by_phrase := hasByPhraseNearby (splitWhitespace text) i
                let match_text := ((splitWhitespace text).getD i []) ++ ' ' ::
                  ((splitWhitespace text).getD (i + 1) [])
                let start_index :=
                  ((buildCharPositions (splitWhitespace text) text 0).getD i
                    (0, 0)).1
                let end_index :=
                  ((buildCharPositions (splitWhitespace text) text 0).getD
                    (i + 1) (0, 0)).2
                some { text := match_text
                       confidence := confidence
                       position := i
                       auxiliary := word1
                       participle := participle
                       has_by_phrase := has_by_phrase
                       start_index := start_index
                       end_index := end_index
                       length := end_index - start_index }
              else none
            else none
          else none) = ms := by injection hok
    rcases List.mem_filterMap.mp hm with ⟨i, hi, hf⟩
    have hir : i < (splitWhitespace text).length - 1 := List.mem_range.mp hi
    simp only at hf
    split_ifs at hf with hc1 hc2 hc3
    rcases Option.some.inj hf with rfl
    have hlen := buildCharPositions_length (splitWhitespace text) text 0
    have hi1 : i < (buildCharPositions (splitWhitespace text) text 0).length := by
      omega
    have hi2 : i + 1 <
        (buildCharPositions (splitWhitespace text) text 0).length := by
      omega
    rcases buildCharPositions_invariant (splitWhitespace text) text 0 with
      ⟨hb, hpw⟩
    have hp1 := hb ((buildCharPositions (splitWhitespace text) text 0).get
      ⟨i, hi1⟩) (List.get_mem _ _ _)
    have hp2 := hb ((buildCharPositions (splitWhitespace text) text 0).get
      ⟨i + 1, hi2⟩) (List.get_mem _ _ _)
    have hpair := List.pairwise_iff_get.mp hpw ⟨i, hi1⟩ ⟨i + 1, hi2⟩
      (by simp)
    have hgd1 : (buildCharPositions (splitWhitespace text) text 0).getD i (0, 0)
        = (buildCharPositions (splitWhitespace text) text 0).get ⟨i, hi1⟩ := by
      rw [List.getD_eq_getElem _ _ hi1]
      simp
    have hgd2 : (buildCharPositions (splitWhitespace text) text 0).getD (i + 1)
          (0, 0)
        = (buildCharPositions (splitWhitespace text) text 0).get
            ⟨i + 1, hi2⟩ := by
      rw [List.getD_eq_getElem _ _ hi2]
      simp
    simp only [hgd1, hgd2]
    omega
  · intro iss issue hok hm
    unfold GrammarChecker.check at hok
    obtain rfl : checkLoop g sentences 0 0 = iss := by injection hok
    exact checkLoop_start_le_end g sentences 0 0 issue hm

/-- C1 witness: the theorem applied to a concrete passive sentence and a
concrete checked sentence, every hypothesis discharged. -/
theorem claim_C1_witness :
    ((PassiveVoiceDetector.default.detect "It was thrown far.".toList).isOk
        = true) ∧
    (∀ ms m, PassiveVoiceDetector.default.detect "It was thrown far.".toList
        = .ok ms → m ∈ ms →
      m.start_index ≤ m.end_index ∧
        m.end_index ≤ utf8Len "It was thrown far.".toList) :=
  ⟨by decide,
   (claim_C1_spans_are_byte_offsets PassiveVoiceDetector.default
     "It was thrown far.".toList GrammarChecker.default []).1⟩

/-- C1 counterexample: spans are byte offsets, not character offsets. In
`"ΩΩΩΩ was thrown"` (each `Ω` is 2 UTF-8 bytes) the single detected match
carries `end_index = 19`, which EXCEEDS the document's length in
characters (15): the claimed invariant `end ≤ document length in
characters` is violated, and the offsets cannot be character offsets. -/
theorem claim_C1_counterexample :
    (∃ m, PassiveVoiceDetector.default.detect "ΩΩΩΩ was thrown".toList
        = Except.ok [m] ∧
      m.end_index = 19 ∧ m.start_index = 9) ∧
    "ΩΩΩΩ was thrown".toList.length = 15 ∧
    utf8Len "ΩΩΩΩ was thrown".toList = 19 :=
  ⟨⟨{ text := "was thrown".toList
      confidence := 9/10
      position := 1
      auxiliary := "was".toList
      participle := "thrown".toList
      has_by_phrase := false
      start_index := 9
      end_index := 19
      length := 10 }, by with_unfolding_all decide, by decide, by decide⟩,
    by decide, by decide⟩

/-! ## Claim theorems: passive-voice detection -/

/-- C3: on `"The ball was thrown by John."` the default detector returns a
match with a by-phrase and confidence above 0.7 (in fact the clamped
confidence 1); on `"She was tired."` it returns no match at all ("tired"
is an adjective exception, so the auxiliary+participle test already
fails). -/
theorem claim_C3_passive_voice_examples :
    (∃ ms, PassiveVoiceDetector.default.detect
        "The ball was thrown by John.".toList = Except.ok ms ∧
      ∃ m ∈ ms, m.has_by_phrase = true ∧ (7 : ℚ)/10 < m.confidence) ∧
    PassiveVoiceDetector.default.detect "She was tired.".toList =
      Except.ok [] :=
  ⟨⟨[{ text := "was thrown".toList
       confidence := 1
       position := 2
       auxiliary := "was".toList
       participle := "thrown".toList
       has_by_phrase := true
       start_index := 9
       end_index := 19
       length := 10 }],
    by with_unfolding_all decide,
    { text := "was thrown".toList
      confidence := 1
      position := 2
      auxiliary := "was".toList
      participle := "thrown".toList
      has_by_phrase := true
      start_index := 9
      end_index := 19
      length := 10 },
    by decide,
    by decide,
    by with_unfolding_all decide⟩,
   by with_unfolding_all decide⟩

/-! ## Claim theorems: the style score -/

set_option maxHeartbeats 1000000 in
/-- C4: the style score is jointly monotonically non-increasing in the
passive count, adverb count, hidden-verb count, glue index and vague-word
count (hence non-increasing in each separately), and always lies in
[0, 100]. -/
theorem claim_C4_style_score_monotone_bounded (s1 s2 : StyleReport)
    (t1 t2 : StickySentencesReport) (d1 d2 : DictionReport)
    (hp : s1.passive_voice_count ≤ s2.passive_voice_count)
    (ha : s1.adverb_count ≤ s2.adverb_count)
    (hh : s1.hidden_verbs.length ≤ s2.hidden_verbs.length)
    (hg : t1.overall_glue_index ≤ t2.overall_glue_index)
    (hv : d1.total_vague_words ≤ d2.total_vague_words) :
    ComprehensiveAnalyzer.calculate_style_score s2 t2 d2 ≤
      ComprehensiveAnalyzer.calculate_style_score s1 t1 d1 ∧
    0 ≤ ComprehensiveAnalyzer.calculate_style_score s1 t1 d1 ∧
    ComprehensiveAnalyzer.calculate_style_score s1 t1 d1 ≤ 100 := by
  have hfloor_nonneg : ∀ g : ℚ, 25 < g → 0 ≤ Int.floor (min (g - 25) 15) := by
    intro g hgt
    apply Int.floor_nonneg.mpr
    apply le_min
    · linarith
    · norm_num
  have hfloor_le : ∀ g : ℚ, Int.floor (min (g - 25) 15) ≤ 15 := by
    intro g
    calc Int.floor (min (g - 25) 15) ≤ Int.floor (15 : ℚ) :=
          Int.floor_le_floor (min_le_right _ _)
      _ = 15 := by norm_num
  have hfloor_mono : Int.floor (min (t1.overall_glue_index - 25) 15) ≤
      Int.floor (min (t2.overall_glue_index - 25) 15) := by
    apply Int.floor_le_floor
    apply min_le_min _ le_rfl
    linarith
  unfold ComprehensiveAnalyzer.calculate_style_score
  dsimp only
  by_cases h1 : 25 < t1.overall_glue_index
  · have h2 : 25 < t2.overall_glue_index := lt_of_lt_of_le h1 hg
    rw [if_pos h1, if_pos h2]
    have q1 := hfloor_nonneg _ h1
    have q2 := hfloor_nonneg _ h2
    have q3 := hfloor_le t1.overall_glue_index
    have q4 := hfloor_le t2.overall_glue_index
    refine ⟨?_, ?_, ?_⟩ <;> omega
  · by_cases h2 : 25 < t2.overall_glue_index
    · rw [if_neg h1, if_pos h2]
      have q2 := hfloor_nonneg _ h2
      have q4 := hfloor_le t2.overall_glue_index
      refine ⟨?_, ?_, ?_⟩ <;> omega
    · rw [if_neg h1, if_neg h2]
      refine ⟨?_, ?_, ?_⟩ <;> omega

/-- C4 witness: the theorem applied to concrete reports with every
hypothesis discharged. -/
theorem claim_C4_witness :
    ComprehensiveAnalyzer.calculate_style_score ⟨2, 3, ["a"]⟩
        ⟨30, 30, 0, [], []⟩ ⟨4, 2, []⟩ ≤
      ComprehensiveAnalyzer.calculate_style_score ⟨1, 2, []⟩
        ⟨20, 20, 0, [], []⟩ ⟨1, 1, []⟩ ∧
    0 ≤ ComprehensiveAnalyzer.calculate_style_score ⟨1, 2, []⟩
        ⟨20, 20, 0, [], []⟩ ⟨1, 1, []⟩ ∧
    ComprehensiveAnalyzer.calculate_style_score ⟨1, 2, []⟩
        ⟨20, 20, 0, [], []⟩ ⟨1, 1, []⟩ ≤ 100 :=
  claim_C4_style_score_monotone_bounded ⟨1, 2, []⟩ ⟨2, 3, ["a"]⟩
    ⟨20, 20, 0, [], []⟩ ⟨30, 30, 0, [], []⟩ ⟨1, 1, []⟩ ⟨4, 2, []⟩
    (by decide) (by decide) (by decide)
    (by with_unfolding_all decide) (by decide)

/-! ## Claim theorems: input validation -/

/-- C5 (amended): the validation taxonomy with its actual precedence —
empty-after-trim first, then the byte-size cap (so an over-size document
below the word minimum fails with `FileTooLarge`, not `DocumentTooShort`),
then the word-count minimum, then the configured maximum, which is
reported as `ValidationError` with a "Document too long" message (there is
no dedicated `DocumentTooLong` variant). A failed validation propagates
out of `TextAnalyzer::new` unchanged, so no analyzer value is returned. -/
theorem claim_C5_validation_taxonomy (vc : ValidationConfig)
    (text : List Char) (cfg : Config) (e : AnalysisError) (M : Nat) :
    ((rustTrim text).isEmpty = true →
      vc.validate_text text = .error .EmptyInput) ∧
    ((rustTrim text).isEmpty = false →
      vc.max_file_size < utf8Len text →
      vc.validate_text text =
        .error (.FileTooLarge (utf8Len text) vc.max_file_size)) ∧
    ((rustTrim text).isEmpty = false →
      utf8Len text ≤ vc.max_file_size →
      validationWordCount text < vc.min_words →
      vc.validate_text text =
        .error (.DocumentTooShort (validationWordCount text) vc.min_words)) ∧
    ((rustTrim text).isEmpty = false →
      utf8Len text ≤ vc.max_file_size →
      vc.min_words ≤ validationWordCount text →
      vc.max_words = some M →
      M < validationWordCount text →
      vc.validate_text text =
        .error (.ValidationError (tooLongMsg (validationWordCount text) M))) ∧
    ((validatorOfConfig cfg).validate_text text = .error e →
      TextAnalyzer.new text cfg = .error e) := by
  refine ⟨?_, ?_, ?_, ?_, ?_⟩
  · intro h
    unfold ValidationConfig.validate_text
    rw [if_pos h]
  · intro h hsize
    unfold ValidationConfig.validate_text
    rw [if_neg (by simp [h]), if_pos hsize]
  · intro h hsize hwc
    unfold ValidationConfig.validate_text
    rw [if_neg (by simp [h]), if_no (by omega), if_pos hwc]
  · intro h hsize hwc hmax hgt
    unfold ValidationConfig.validate_text
    rw [if_neg (by simp [h]), if_no (by omega), if_no (by omega), hmax]
    dsimp only
    rw [if_pos hgt]
  · intro h
    unfold TextAnalyzer.new
    dsimp only
    rw [h]

/-- C5 counterexample: with a configured byte cap of 0 MB and the default
word minimum 10, the three-word input `"a b c"` is below the minimum, yet
construction fails with `FileTooLarge`, not `DocumentTooShort`: the size
check precedes the word-count check. -/
theorem claim_C5_counterexample :
    TextAnalyzer.new "a b c".toList
        { validation := ⟨0, 10, none, 300⟩
          features := ⟨true, true, true, true, true, true, true, true⟩ } =
      Except.error (.FileTooLarge 5 0) ∧
    validationWordCount "a b c".toList = 3 ∧ (3 : Nat) < 10 := by decide

/-! ## Helper lemmas: UTF-8 validity -/

theorem validUtf8_encodeChar (c : Char) (rest : List Nat) :
    validUtf8 (utf8EncodeChar c ++ rest) = validUtf8 rest := by
  have hval : c.toNat < 0xd800 ∨ (0xdfff < c.toNat ∧ c.toNat < 0x110000) :=
    c.valid
  set v := c.toNat with hv
  unfold validUtf8
  by_cases h1 : v < 0x80
  · rw [show utf8EncodeChar c = [v] from by rw [utf8EncodeChar, if_pos h1]]
    simp only [List.cons_append, List.nil_append]
    rw [utf8Dfa, if_pos h1]
  · by_cases h2 : v < 0x800
    · rw [show utf8EncodeChar c = [0xC0 + v / 0x40, 0x80 + v % 0x40] from by
        rw [utf8EncodeChar, if_neg h1, if_pos h2]]
      simp only [List.cons_append, List.nil_append]
      rw [utf8Dfa, if_no (by omega), if_no (by omega), if_pos (by omega)]
      rw [utf8Dfa, if_pos (by simp only [Bool.and_eq_true, decide_eq_true_eq]; omega)]
    · by_cases h3 : v < 0x10000
      · rw [show utf8EncodeChar c =
            [0xE0 + v / 0x1000, 0x80 + (v / 0x40) % 0x40, 0x80 + v % 0x40]
          from by rw [utf8EncodeChar, if_neg h1, if_neg h2, if_pos h3]]
        simp only [List.cons_append, List.nil_append]
        by_cases hE0 : v < 0x1000
        · rw [utf8Dfa, if_no (by omega), if_no (by omega),
            if_no (by omega), if_pos (by omega)]
          rw [utf8Dfa, if_pos (by simp only [Bool.and_eq_true, decide_eq_true_eq]; omega)]
          rw [utf8Dfa, if_pos (by simp only [Bool.and_eq_true, decide_eq_true_eq]; omega)]
        · by_cases hED : v < 0xD000
          · rw [utf8Dfa, if_no (by omega), if_no (by omega),
              if_no (by omega), if_no (by omega), if_pos (by omega)]
            rw [utf8Dfa, if_pos (by simp only [Bool.and_eq_true, decide_eq_true_eq]; omega)]
            rw [utf8Dfa, if_pos (by simp only [Bool.and_eq_true, decide_eq_true_eq]; omega)]
          · by_cases hEDr : v < 0xE000
            · have hsur : v < 0xd800 := by
                rcases hval with hlow | ⟨hhi, _⟩
                · exact hlow
                · omega
              rw [utf8Dfa, if_no (by omega), if_no (by omega),
                if_no (by omega), if_no (by omega), if_no (by omega),
                if_pos (by omega)]
              rw [utf8Dfa, if_pos (by simp only [Bool.and_eq_true, decide_eq_true_eq]; omega)]
              rw [utf8Dfa, if_pos (by simp only [Bool.and_eq_true, decide_eq_true_eq]; omega)]
            · rw [utf8Dfa, if_no (by omega), if_no (by omega),
                if_no (by omega), if_no (by omega), if_no (by omega),
                if_no (by omega), if_pos (by omega)]
              rw [utf8Dfa, if_pos (by simp only [Bool.and_eq_true, decide_eq_true_eq]; omega)]
              rw [utf8Dfa, if_pos (by simp only [Bool.and_eq_true, decide_eq_true_eq]; omega)]
      · have h4 : v < 0x110000 := by
          rcases hval with hlow | ⟨_, hhi⟩
          · omega
          · exact hhi
        rw [show utf8EncodeChar c =
            [0xF0 + v / 0x40000, 0x80 + (v / 0x1000) % 0x40,
             0x80 + (v / 0x40) % 0x40, 0x80 + v % 0x40] from by
          rw [utf8EncodeChar, if_neg h1, if_neg h2, if_neg h3]]
        simp only [List.cons_append, List.nil_append]
        by_cases hF0 : v < 0x40000
        · rw [utf8Dfa, if_no (by omega), if_no (by omega),
            if_no (by omega), if_no (by omega), if_no (by omega),
            if_no (by omega), if_no (by omega), if_pos (by omega)]
          rw [utf8Dfa, if_pos (by simp only [Bool.and_eq_true, decide_eq_true_eq]; omega)]
          rw [utf8Dfa, if_pos (by simp only [Bool.and_eq_true, decide_eq_true_eq]; omega)]
          rw [utf8Dfa, if_pos (by simp only [Bool.and_eq_true, decide_eq_true_eq]; omega)]
        · by_cases hF4 : v < 0x100000
          · rw [utf8Dfa, if_no (by omega), if_no (by omega),
              if_no (by omega), if_no (by omega), if_no (by omega),
              if_no (by omega), if_no (by omega), if_no (by omega),
              if_pos (by omega)]
            rw [utf8Dfa, if_pos (by simp only [Bool.and_eq_true, decide_eq_true_eq]; omega)]
            rw [utf8Dfa, if_pos (by simp only [Bool.and_eq_true, decide_eq_true_eq]; omega)]
            rw [utf8Dfa, if_pos (by simp only [Bool.and_eq_true, decide_eq_true_eq]; omega)]
          · rw [utf8Dfa, if_no (by omega), if_no (by omega),
              if_no (by omega), if_no (by omega), if_no (by omega),
              if_no (by omega), if_no (by omega), if_no (by omega),
              if_no (by omega), if_pos (by omega)]
            rw [utf8Dfa, if_pos (by simp only [Bool.and_eq_true, decide_eq_true_eq]; omega)]
            rw [utf8Dfa, if_pos (by simp only [Bool.and_eq_true, decide_eq_true_eq]; omega)]
            rw [utf8Dfa, if_pos (by simp only [Bool.and_eq_true, decide_eq_true_eq]; omega)]

theorem is_utf8_valid_true (s : List Char) : is_utf8_valid s = true := by
  unfold is_utf8_valid utf8Encode
  induction s with
  | nil => rfl
  | cons c t ih =>
    rw [List.flatMap_cons, validUtf8_encodeChar]
    exact ih


/-! ## Claim theorems: readability -/

theorem rustRound_bounds (x : ℚ) (h0 : 0 ≤ x) (h1 : x ≤ 100) :
    0 ≤ rustRound x 1 ∧ rustRound x 1 ≤ 100 := by
  unfold rustRound f64Round
  dsimp only
  have hm : ((10 : ℚ) ^ (1 : Nat)) = 10 := by norm_num
  rw [hm, if_pos (by linarith)]
  constructor
  · apply div_nonneg _ (by norm_num)
    exact_mod_cast Int.floor_nonneg.mpr (by linarith)
  · rw [div_le_iff (by norm_num : (0 : ℚ) < 10)]
    have hfl : Int.floor (x * 10 + 1/2) ≤ 1000 := by
      rw [Int.floor_le_iff]
      push_cast
      linarith
    calc ((Int.floor (x * 10 + 1/2) : Int) : ℚ) ≤ (1000 : ℚ) := by
          exact_mod_cast hfl
      _ = 100 * 10 := by norm_num

/-- C8 (amended): the Flesch Reading Ease of `readability_metrics` always
lies in [0, 100]; the SMOG index is present exactly when the analyzer has
at least 30 sentences AND a non-empty extracted word list (a document with
30 sentences but no word-pattern matches takes the degenerate-input early
return, whose SMOG is `None`). -/
theorem claim_C8_readability_bounds (a : TextAnalyzer)
    (r : ReadabilityMetrics) (h : a.readability_metrics = .ok r) :
    (0 ≤ r.flesch_reading_ease ∧ r.flesch_reading_ease ≤ 100) ∧
    (r.smog_index.isSome = true ↔
      (30 ≤ a.sentences.length ∧ a.words.length ≠ 0)) := by
  unfold TextAnalyzer.readability_metrics at h
  by_cases hz : (a.sentences.length = 0 || a.words.length = 0) = true
  · rw [if_pos hz] at h
    obtain rfl : ReadabilityMetrics.default = r := by injection h
    simp only [Bool.or_eq_true, decide_eq_true_eq] at hz
    refine ⟨⟨le_refl 0, by norm_num [ReadabilityMetrics.default]⟩, ?_⟩
    constructor
    · intro hsome
      exact absurd hsome (by simp [ReadabilityMetrics.default])
    · rintro ⟨h30, hw⟩
      rcases hz with hz | hz
      · omega
      · exact absurd hz hw
  · rw [if_neg hz] at h
    simp only [Bool.or_eq_true, decide_eq_true_eq, not_or] at hz
    dsimp only at h
    rcases Except.ok.inj h with rfl
    constructor
    · apply rustRound_bounds
      · exact le_min (le_max_right _ _) (by norm_num)
      · exact min_le_right _ _
    · by_cases h30 : 30 ≤ a.sentences.length
      · rw [if_pos h30]
        simp [h30, hz.2]
      · rw [if_neg h30]
        simp [h30]

/-- C8 witness: the theorem applied to a concrete (degenerate) analyzer
value, its hypothesis discharged by evaluation. -/
theorem claim_C8_witness :
    (0 ≤ ReadabilityMetrics.default.flesch_reading_ease ∧
      ReadabilityMetrics.default.flesch_reading_ease ≤ 100) ∧
    (ReadabilityMetrics.default.smog_index.isSome = true ↔
      (30 ≤ (TextAnalyzer.mk [] [] [] [] Config.default
          SentenceSplitter.default PassiveVoiceDetector.default
          GrammarChecker.default).sentences.length ∧
        (TextAnalyzer.mk [] [] [] [] Config.default
          SentenceSplitter.default PassiveVoiceDetector.default
          GrammarChecker.default).words.length ≠ 0)) :=
  claim_C8_readability_bounds
    (TextAnalyzer.mk [] [] [] [] Config.default SentenceSplitter.default
      PassiveVoiceDetector.default GrammarChecker.default)
    ReadabilityMetrics.default (by with_unfolding_all decide)

set_option maxRecDepth 100000 in
set_option maxHeartbeats 4000000 in
/-- C8 counterexample: a successfully constructed analyzer over a document
of 30 sentences (each `"###?"`) has NO extracted words, so its SMOG index
is `None` although the sentence count is `30 ≥ 30`, contradicting the
claim's "(and Some otherwise)". -/
theorem claim_C8_counterexample :
    (TextAnalyzer.new
        "###? ###? ###? ###? ###? ###? ###? ###? ###? ###? ###? ###? ###? ###? ###? ###? ###? ###? ###? ###? ###? ###? ###? ###? ###? ###? ###? ###? ###? ###?".toList
        Config.default).map
      (fun a => (a.sentences.length, a.readability_metrics)) =
      Except.ok (30, Except.ok ReadabilityMetrics.default) ∧
    ReadabilityMetrics.default.smog_index = none := by
  with_unfolding_all decide

/-! ## Claim theorems: the unreachable UTF-8 error -/

theorem tooLongMsg_ne (wc M : Nat) :
    tooLongMsg wc M ≠ "Invalid UTF-8 encoding detected" := by
  intro h
  have hd := congrArg String.data h
  unfold tooLongMsg at hd
  simp only [String.data_append] at hd
  simp only [List.cons_append] at hd
  injection hd with h1 _
  exact absurd h1 (by decide)

/-- C10: the input of `validate_text` is a `&str`, hence always valid
UTF-8: `is_utf8_valid` is constantly `true` (here proved by showing the
UTF-8 encoding of any Unicode scalar sequence passes the `from_utf8` byte
automaton), so the "Invalid UTF-8 encoding detected" `ValidationError` is
unreachable for every configuration and input. -/
theorem claim_C10_no_invalid_utf8_error (vc : ValidationConfig)
    (text : List Char) :
    is_utf8_valid text = true ∧
    vc.validate_text text ≠
      Except.error (.ValidationError "Invalid UTF-8 encoding detected") := by
  refine ⟨is_utf8_valid_true text, ?_⟩
  unfold ValidationConfig.validate_text
  by_cases h1 : (rustTrim text).isEmpty
  · rw [if_pos h1]
    simp
  · rw [if_neg h1]
    dsimp only
    by_cases h2 : vc.max_file_size < utf8Len text
    · rw [if_pos h2]
      simp
    · rw [if_neg h2]
      by_cases h3 : validationWordCount text < vc.min_words
      · rw [if_pos h3]
        simp
      · rw [if_neg h3]
        have hutf : (!is_utf8_valid text) = false := by
          rw [is_utf8_valid_true text]
          rfl
        cases hmax : vc.max_words with
        | none =>
          dsimp only
          rw [hutf]
          simp
        | some M =>
          dsimp only
          by_cases h4 : M < validationWordCount text
          · rw [if_pos h4]
            simp only [ne_eq, Except.error.injEq,
              AnalysisError.ValidationError.injEq]
            exact tooLongMsg_ne _ _
          · rw [if_neg h4, hutf]
            simp
